import Mathlib

/-
Verification of the flac_to_mka metadata core.

The definitions below are a shallow embedding, translated from the
repository sources:
  * src/flac_to_mka/flac/metadata.py   (Metadata model: merge, validate, finalize,
                                        GetOutputFilename, CueMetadata track extraction)
  * src/flac_to_mka/mka/chapterid.py   (RandomChapterID pool)
  * src/tools/mka/tagwriter.py         (MultiDiscTagger disc summary blocks)
  * src/tools/flac/cuewriter.py        (CueSheet.CreateCUE)
  * src/tools/util/time.py             (time codes; float-based, see the notes there)

Python strings are modelled as Lean `String`, Python `dict` as an ordered
association list with in-place update, Python `None` as `Option.none`, and
Python exceptions as `Except`.
-/

/-! ### Python string primitives -/

/-- Whitespace characters recognised by Python's `str.strip()` (ASCII subset). -/
def pyIsSpace (c : Char) : Bool :=
  c = ' ' || c = '\t' || c = '\n' || c = '\r' || c = '\x0b' || c = '\x0c'

/-- `str.strip()` on a character list: drop whitespace from both ends. -/
def pyStripChars (l : List Char) : List Char :=
  ((l.dropWhile pyIsSpace).reverse.dropWhile pyIsSpace).reverse

/-- Python `str.strip()`. -/
def pyStrip (s : String) : String :=
  String.mk (pyStripChars s.data)

/-- Python `str.rstrip()`. -/
def pyRStrip (s : String) : String :=
  String.mk ((s.data.reverse.dropWhile pyIsSpace).reverse)

/-- Python `str.startswith`. -/
def pyStartsWith (s p : String) : Bool :=
  s.data.take p.data.length == p.data

/-- Python truthiness of an optional string (`None` and `""` are falsy). -/
def pyTruthy : Option String → Bool
  | none => false
  | some s => s != ""

/-- Python `str(x)` rendering of an optional string (`None` prints as "None"),
as interpolated by f-strings in `GetOutputFilename`. -/
def pyStr : Option String → String
  | none => "None"
  | some s => s

/-- Decimal digit character, used to build `str(n)` for a natural number. -/
def decDigit : Nat → Char
  | 0 => '0' | 1 => '1' | 2 => '2' | 3 => '3' | 4 => '4'
  | 5 => '5' | 6 => '6' | 7 => '7' | 8 => '8' | _ => '9'

/-- Digit list of the decimal numeral of `n` (most significant first);
`fuel` bounds the recursion depth structurally, so that numerals reduce by
iota inside the kernel. -/
def decCharsAux : Nat → Nat → List Char
  | 0, _ => []
  | fuel + 1, n =>
    if n < 10 then [decDigit n]
    else decCharsAux fuel (n / 10) ++ [decDigit (n % 10)]

def decChars (n : Nat) : List Char :=
  decCharsAux (n + 1) n

/-- Python `str(n)` for a natural number `n`. -/
def decRepr (n : Nat) : String :=
  String.mk (decChars n)

theorem decDigit_not_space (m : Nat) : pyIsSpace (decDigit m) = false := by
  unfold decDigit
  split <;> rfl

theorem decChars_ne_nil (n : Nat) : decChars n ≠ [] := by
  unfold decChars decCharsAux
  split <;> simp

theorem decCharsAux_not_space (fuel : Nat) :
    ∀ n, ∀ c ∈ decCharsAux fuel n, pyIsSpace c = false := by
  induction fuel with
  | zero => intro n c hc; exact absurd hc (by simp [decCharsAux])
  | succ fuel ih =>
    intro n c hc
    unfold decCharsAux at hc
    split at hc
    · simp only [List.mem_singleton] at hc
      subst hc
      exact decDigit_not_space n
    · rcases List.mem_append.1 hc with h | h
      · exact ih (n / 10) c h
      · simp only [List.mem_singleton] at h
        subst h
        exact decDigit_not_space _

theorem decChars_not_space (n : Nat) : ∀ c ∈ decChars n, pyIsSpace c = false :=
  decCharsAux_not_space (n + 1) n

theorem dropWhile_eq_self_of_not_space (l : List Char)
    (h : ∀ c ∈ l, pyIsSpace c = false) : l.dropWhile pyIsSpace = l := by
  cases l with
  | nil => rfl
  | cons a t =>
    simp [List.dropWhile_cons, h a (by simp)]

theorem pyStripChars_eq_self (l : List Char)
    (h : ∀ c ∈ l, pyIsSpace c = false) : pyStripChars l = l := by
  unfold pyStripChars
  rw [dropWhile_eq_self_of_not_space l h,
      dropWhile_eq_self_of_not_space l.reverse (by intro c hc; exact h c (List.mem_reverse.1 hc)),
      List.reverse_reverse]

theorem pyStrip_decRepr (n : Nat) : pyStrip (decRepr n) = decRepr n := by
  unfold pyStrip decRepr
  rw [show (String.mk (decChars n)).data = decChars n from rfl,
      pyStripChars_eq_self _ (decChars_not_space n)]

theorem decRepr_ne_empty (n : Nat) : decRepr n ≠ "" := by
  unfold decRepr
  intro h
  exact decChars_ne_nil n (congrArg String.data h)

/-! ### The output-filename sanitizer

From `Metadata.GetOutputFilename` (src/flac_to_mka/flac/metadata.py:338-342):
the regex `[<>:/\\]` is substituted by `-`, then `[|?*]` is removed, then
`"` is replaced by `'`. -/

/-- Characters replaced by a dash (regex class of the first substitution). -/
def dashChars : List Char := ['<', '>', ':', '/', '\\']

/-- Characters removed outright (regex class of the second substitution). -/
def dropChars : List Char := ['|', '?', '*']

/-- First pass: substitute each member of the class by a dash. -/
def subDashChar (c : Char) : Char :=
  if c ∈ dashChars then '-' else c

/-- Second pass: keep characters outside the removal class. -/
def keepChar (c : Char) : Bool :=
  decide (c ∉ dropChars)

/-- Third pass: replace a double quote by a single quote. -/
def subQuoteChar (c : Char) : Char :=
  if c = '"' then '\'' else c

/-- Composition of the three passes on a character list. -/
def sanitizeChars (l : List Char) : List Char :=
  ((l.map subDashChar).filter keepChar).map subQuoteChar

/-- The filename sanitizer used by `GetOutputFilename`. -/
def sanitizeFilename (s : String) : String :=
  String.mk (sanitizeChars s.data)

/-- Per-character description of the sanitizer: dash-class characters become
a dash, the removal-class characters disappear, a double quote becomes a
single quote, everything else is unchanged. -/
def sanitizeChar (c : Char) : Option Char :=
  if c ∈ dashChars then some '-'
  else if c ∈ dropChars then none
  else if c = '"' then some '\'' else some c

theorem sanitizeChars_eq_filterMap (l : List Char) :
    sanitizeChars l = l.filterMap sanitizeChar := by
  induction l with
  | nil => rfl
  | cons c t ih =>
    unfold sanitizeChars at ih ⊢
    simp only [List.map_cons, List.filter_cons]
    by_cases h1 : c ∈ dashChars
    · rw [show subDashChar c = '-' from if_pos h1]
      rw [if_pos (show keepChar '-' = true by decide)]
      simp only [List.map_cons]
      rw [show subQuoteChar '-' = '-' by decide]
      have hs : sanitizeChar c = some '-' := by unfold sanitizeChar; rw [if_pos h1]
      rw [List.filterMap_cons, hs, ih]
    · rw [show subDashChar c = c from if_neg h1]
      by_cases h2 : c ∈ dropChars
      · have hk : ¬ (keepChar c = true) := by simp [keepChar, h2]
        rw [if_neg hk]
        have hs : sanitizeChar c = none := by unfold sanitizeChar; rw [if_neg h1, if_pos h2]
        rw [List.filterMap_cons, hs, ih]
      · have hk : keepChar c = true := by simp [keepChar, h2]
        rw [if_pos hk]
        simp only [List.map_cons]
        by_cases h3 : c = '"'
        · subst h3
          rw [show subQuoteChar '"' = '\'' by decide]
          rw [List.filterMap_cons, show sanitizeChar '"' = some '\'' by decide, ih]
        · rw [show subQuoteChar c = c from if_neg h3]
          have hs : sanitizeChar c = some c := by
            unfold sanitizeChar; rw [if_neg h1, if_neg h2, if_neg h3]
          rw [List.filterMap_cons, hs, ih]

theorem sanitizeChar_bind_self (c : Char) :
    (sanitizeChar c).bind sanitizeChar = sanitizeChar c := by
  by_cases h1 : c ∈ dashChars
  · rw [show sanitizeChar c = some '-' from by unfold sanitizeChar; rw [if_pos h1]]
    decide
  · by_cases h2 : c ∈ dropChars
    · rw [show sanitizeChar c = none from by unfold sanitizeChar; rw [if_neg h1, if_pos h2]]
      rfl
    · by_cases h3 : c = '"'
      · subst h3
        decide
      · rw [show sanitizeChar c = some c from by
          unfold sanitizeChar; rw [if_neg h1, if_neg h2, if_neg h3]]
        show sanitizeChar c = some c
        unfold sanitizeChar
        rw [if_neg h1, if_neg h2, if_neg h3]

theorem sanitizeFilename_data (s : String) :
    (sanitizeFilename s).data = s.data.filterMap sanitizeChar := by
  unfold sanitizeFilename
  rw [show (String.mk (sanitizeChars s.data)).data = sanitizeChars s.data from rfl,
      sanitizeChars_eq_filterMap]

theorem sanitizeFilename_idem (s : String) :
    sanitizeFilename (sanitizeFilename s) = sanitizeFilename s := by
  unfold sanitizeFilename
  apply congrArg String.mk
  rw [show (String.mk (sanitizeChars s.data)).data = sanitizeChars s.data from rfl]
  rw [sanitizeChars_eq_filterMap, sanitizeChars_eq_filterMap, List.filterMap_filterMap]
  apply List.filterMap_congr
  intro c _
  exact sanitizeChar_bind_self c

/-! ### Python dict model

`Metadata.data` is a Python `dict` mapping tag keys to strings, except that
the four required keys start out bound to `None`.  We model values as
`Option String` (with `none` for Python `None`) and the dict as an ordered
association list with in-place update, mirroring insertion-order semantics. -/

abbrev PyVal := Option String

abbrev TagDict := List (String × PyVal)

def dictLookup : TagDict → String → Option PyVal
  | [], _ => none
  | (k', v) :: t, k => if k' == k then some v else dictLookup t k

/-- Python `key in self.data` (`Metadata.__contains__`). -/
def dictContains (d : TagDict) (k : String) : Bool :=
  (dictLookup d k).isSome

/-- Python `self.data[key] = value` (`Metadata.__setitem__`). -/
def dictSet : TagDict → String → PyVal → TagDict
  | [], k, v => [(k, v)]
  | (k', v') :: t, k, v => if k' == k then (k', v) :: t else (k', v') :: dictSet t k v

/-- Python `del self.data[key]` under `IgnoreKeyError` (`Metadata.__delitem__`). -/
def dictDel (d : TagDict) (k : String) : TagDict :=
  d.filter (fun p => p.1 != k)

/-! ### The Metadata state

One record per source audio file or CUE `TRACK` block.  In the source the
`track` entry holds the decimal string of the track number and is consumed
as `int(x["track"])`; we store the integer value directly. -/

structure Track where
  title : String := ""
  track : Nat := 0
  start_time : String := ""
  disc : Option String := none
  side : Option String := none
  subindex : Option String := none
  subtitle : Option String := none
  phase : Option String := none
deriving DecidableEq

/-- The mutable attributes of a `Metadata` object relevant to merge,
validation, finalization and output-name generation
(src/flac_to_mka/flac/metadata.py:53-60). -/
structure MState where
  data : TagDict := []
  channels : String := "2.0"
  discs : Nat := 1
  tracks : List Track := []
  filename : Option String := none
  forced_filename : Bool := false
deriving DecidableEq

/-- `Metadata.__getitem__`: `self.data.get(key, '')` — an absent key reads
as the empty string, a key bound to `None` reads as `None`. -/
def getVal (m : MState) (k : String) : PyVal :=
  match dictLookup m.data k with
  | some v => v
  | none => some ""

/-- The CLI override bundle consumed by `Metadata._MergeWithArgs`.
`argparse` defaults every value option to `None`; `discs` is delivered as a
decimal string and consumed as `int(args.discs)`, so we carry the integer. -/
structure Args where
  album : Option String := none
  artist : Option String := none
  genre : Option String := none
  year : Option String := none
  label : Option String := none
  issuedate : Option String := none
  version : Option String := none
  medium : Option String := none
  disc : Option String := none
  discs : Option Nat := none
  nodiscs : Bool := false
  multidisc : Bool := false
deriving DecidableEq

/-- The exceptions the modelled pipeline can raise. -/
inductive MetaErr where
  | tagNotFound (msg : String)
  | cueFormat (msg : String)
  | discConfiguration (msg : String)
  | valueError (msg : String)
  | runtimeError (msg : String)
  | attributeError
  | typeError
  | indexError
deriving DecidableEq

/-- Valid medium names.  `Metadata._Validate` consults
`arguments.MEDIUM_CHOICES`; the module `flac_to_mka.flac.arguments` is not
in src, so the list is taken from the `--medium` choices of
src/tools/flac/arguments.py:29-39. -/
def MEDIUM_CHOICES : List String :=
  ["CD", "SACD", "DVD", "DVD-A", "Blu-ray", "Web", "Vinyl", "78RPM Vinyl",
   "LP", "Vinyl LP", "45RPM Vinyl LP", "EP", "Vinyl EP", "45RPM Vinyl EP",
   "180g Vinyl LP", "180g 45RPM Vinyl LP", "200g Vinyl LP", "200g 45RPM Vinyl LP",
   "220g Vinyl LP", "220g 45RPM Vinyl LP", "Reel-to-reel", "8-Track", "Cassette", "VHS"]

/-! ### `Metadata._Validate` (src/flac_to_mka/flac/metadata.py:157-194) -/

/-- First validation step: if exactly one of `ISSUE_DATE`/`LABEL` is
present, silently delete both. -/
def labelIssueFix (m : MState) : MState :=
  if dictContains m.data "ISSUE_DATE" != dictContains m.data "LABEL" then
    { m with data := dictDel (dictDel m.data "ISSUE_DATE") "LABEL" }
  else m

/-- Second validation step: disc count and `PART_NUMBER` must be present
together or absent together. -/
def discNumberCheck (m : MState) : Except MetaErr MState :=
  if 1 < m.discs ∧ dictContains m.data "PART_NUMBER" = false then
    Except.error (MetaErr.discConfiguration "Number of discs is set but disc number not known")
  else if dictContains m.data "PART_NUMBER" = true ∧ m.discs < 2 then
    Except.error (MetaErr.discConfiguration "Disc number is set but number of discs is not known")
  else Except.ok m

/-- Third validation step: default the original medium to CD, otherwise
demand a known medium name. -/
def mediumCheck (m : MState) : Except MetaErr MState :=
  if dictContains m.data "ORIGINAL_MEDIUM" = false then
    Except.ok { m with data := dictSet m.data "ORIGINAL_MEDIUM" (some "CD") }
  else if getVal m "ORIGINAL_MEDIUM" ∉ MEDIUM_CHOICES.map some then
    Except.error (MetaErr.valueError "Invalid medium")
  else Except.ok m

/-- Fourth validation step: the four required tags must not read as `None`.
Note the code checks `self[tag] is None`, so a key bound to an empty string
(or an absent key, which reads as `''`) passes. -/
def requiredCheck (m : MState) : Except MetaErr MState :=
  if getVal m "TITLE" = none then
    Except.error (MetaErr.tagNotFound "Incomplete metadata - missing title")
  else if getVal m "ARTIST" = none then
    Except.error (MetaErr.tagNotFound "Incomplete metadata - missing artist")
  else if getVal m "GENRE" = none then
    Except.error (MetaErr.tagNotFound "Incomplete metadata - missing genre")
  else if getVal m "DATE_RECORDED" = none then
    Except.error (MetaErr.tagNotFound "Incomplete metadata - missing year")
  else Except.ok m

/-- Final validation step: `self[key] = value.strip()` over all entries.
A value of `None` would raise `AttributeError` in Python. -/
def stripEntries : TagDict → Option TagDict
  | [] => some []
  | (k, some v) :: t => (stripEntries t).map (fun d => (k, some (pyStrip v)) :: d)
  | (_, none) :: _ => none

def stripAllTags (m : MState) : Except MetaErr MState :=
  match stripEntries m.data with
  | some d => Except.ok { m with data := d }
  | none => Except.error MetaErr.attributeError

/-- `Metadata._Validate`. -/
def Validate (m : MState) : Except MetaErr MState := do
  let m2 ← discNumberCheck (labelIssueFix m)
  let m3 ← mediumCheck m2
  let m4 ← requiredCheck m3
  stripAllTags m4

/-! ### `Metadata._MergeWithArgs` (src/flac_to_mka/flac/metadata.py:108-155) -/

/-- `if args.x: self[key] = args.x`. -/
def setIfTruthy (m : MState) (k : String) (v : Option String) : MState :=
  if pyTruthy v then { m with data := dictSet m.data k v } else m

/-- `if args.issuedate and "LABEL" in self: self["ISSUE_DATE"] = args.issuedate`. -/
def mergeIssueDate (a : Args) (m : MState) : MState :=
  if pyTruthy a.issuedate && dictContains m.data "LABEL" then
    { m with data := dictSet m.data "ISSUE_DATE" a.issuedate } else m

/-- `if args.disc and self.discs > 1: self["PART_NUMBER"] = args.disc`. -/
def mergeDiscOnly (a : Args) (m : MState) : MState :=
  if pyTruthy a.disc && decide (1 < m.discs) then
    { m with data := dictSet m.data "PART_NUMBER" a.disc } else m

/-- `if args.discs and "PART_NUMBER" in self: self.discs = int(args.discs)`. -/
def mergeDiscsOnly (a : Args) (m : MState) : MState :=
  match a.discs with
  | some d => if dictContains m.data "PART_NUMBER" then { m with discs := d } else m
  | none => m

/-- `if args.disc and args.discs: self["PART_NUMBER"] = args.disc; self.discs = int(args.discs)`. -/
def mergeBoth (a : Args) (m : MState) : MState :=
  if pyTruthy a.disc && a.discs.isSome then
    { m with data := dictSet m.data "PART_NUMBER" a.disc, discs := a.discs.getD 0 }
  else m

/-- `if args.nodiscs: self.discs = 1; del self["PART_NUMBER"]` (KeyError suppressed). -/
def mergeNodiscs (a : Args) (m : MState) : MState :=
  if a.nodiscs then { m with discs := 1, data := dictDel m.data "PART_NUMBER" } else m

/-- The pure state transformation of `_MergeWithArgs` before its closing
`self._Validate()` call, in source order. -/
def mergeState (a : Args) (m : MState) : MState :=
  let m := setIfTruthy m "TITLE" a.album
  let m := setIfTruthy m "ARTIST" a.artist
  let m := setIfTruthy m "GENRE" a.genre
  let m := setIfTruthy m "DATE_RECORDED" a.year
  let m := setIfTruthy m "LABEL" a.label
  let m := mergeIssueDate a m
  let m := setIfTruthy m "VERSION" a.version
  let m := setIfTruthy m "ORIGINAL_MEDIUM" a.medium
  let m := mergeDiscOnly a m
  let m := mergeDiscsOnly a m
  let m := mergeBoth a m
  mergeNodiscs a m

def MergeWithArgs (args : Option Args) (m : MState) : Except MetaErr MState :=
  match args with
  | none => Validate m
  | some a => Validate (mergeState a m)

/-! ### `Metadata._Finalize` (src/flac_to_mka/flac/metadata.py:196-225) -/

/-- Python `re.split("-|/|\.", s)` specialised to the single-character
alternatives used for dates. -/
def splitDateSeps : List Char → List Char → List String
  | [], acc => [String.mk acc.reverse]
  | c :: t, acc =>
    if c ∈ ['-', '/', '.'] then String.mk acc.reverse :: splitDateSeps t []
    else splitDateSeps t (c :: acc)

def splitDate (s : String) : List String := splitDateSeps s.data []

/-- The `TOTAL_PARTS` part of `_Finalize`: when `sumparts`, set the tag to
`str(max(int(x["track"]) for x in self.tracks))` (`max` of an empty
sequence raises `ValueError`); otherwise delete the tag if present. -/
def finalizeSumparts (sumparts : Bool) (m : MState) : Except MetaErr MState :=
  if sumparts then
    match (m.tracks.map Track.track).max? with
    | some mx => Except.ok { m with data := dictSet m.data "TOTAL_PARTS" (some (decRepr mx)) }
    | none => Except.error (MetaErr.valueError "max() arg is an empty sequence")
  else if dictContains m.data "TOTAL_PARTS" then
    Except.ok { m with data := dictDel m.data "TOTAL_PARTS" }
  else Except.ok m

/-- The year part of `_Finalize`: reduce `DATE_RECORDED` to a 4-digit
component of the `-`/`/`/`.`-separated date string. -/
def finalizeYear (m : MState) : Except MetaErr MState :=
  match getVal m "DATE_RECORDED" with
  | none => Except.error MetaErr.typeError
  | some d =>
    if d.length = 4 then Except.ok m
    else
      match (splitDate d).find? (fun y => y.length == 4) with
      | some y => Except.ok { m with data := dictSet m.data "DATE_RECORDED" (some y) }
      | none => Except.error (MetaErr.runtimeError "Cannot parse date")

def Finalize (sumparts : Bool) (m : MState) : Except MetaErr MState := do
  let m1 ← finalizeSumparts sumparts m
  finalizeYear m1

/-- The tail of `Metadata.__init__` after variant-specific tag collection:
`self._MergeWithArgs(args); self._Validate(); self._Finalize()`
(src/flac_to_mka/flac/metadata.py:66-68); `_MergeWithArgs` itself ends in a
`_Validate` call. -/
def constructTail (sumparts : Bool) (args : Option Args) (m : MState) : Except MetaErr MState := do
  let m1 ← MergeWithArgs args m
  let m2 ← Validate m1
  Finalize sumparts m2

/-! ### `Metadata.GetOutputFilename` (src/flac_to_mka/flac/metadata.py:296-346) -/

/-- Modelled from the spec: the module `flac_to_mka.util.ext` is not in
src; the spec's filename scenario fixes the merged-output extension as
`.wav`. -/
def extWAV : String := ".wav"

/-- Python `labeltag and f" ({labeltag})"` coerced to a string. -/
def labelWrap (t : String) : String :=
  if t == "" then "" else " (" ++ t ++ ")"

/-- `channels = self.channels if self.channels != '2.0' else ''`. -/
def channelsPart (m : MState) : String :=
  if m.channels != "2.0" then m.channels else ""

/-- `tags['base']`. -/
def baseTag (m : MState) : String :=
  pyStr (getVal m "ARTIST") ++ " - " ++ pyStr (getVal m "DATE_RECORDED") ++ " - "
    ++ pyStr (getVal m "TITLE")

/-- `tags['version']`. -/
def versionTag (m : MState) : String :=
  if pyTruthy (getVal m "VERSION") then " (" ++ pyStr (getVal m "VERSION") ++ ")" else ""

/-- The unstripped label/release interior string. -/
def labelInterior (m : MState) : String :=
  if getVal m "ORIGINAL_MEDIUM" == some "CD" then
    pyStr (getVal m "LABEL") ++ " " ++ pyStr (getVal m "ISSUE_DATE") ++ " " ++ channelsPart m
  else
    pyStr (getVal m "LABEL") ++ " " ++ pyStr (getVal m "ISSUE_DATE") ++ " "
      ++ pyStr (getVal m "ORIGINAL_MEDIUM") ++ " " ++ channelsPart m

/-- `tags['label']`. -/
def labelTag (m : MState) : String :=
  labelWrap (pyStrip (labelInterior m))

/-- `tags['disc']`. -/
def discTag (m : MState) : String :=
  if pyTruthy (getVal m "PART_NUMBER") then
    pyRStrip (" (Disc " ++ pyStr (getVal m "PART_NUMBER") ++ ") " ++ pyStr (getVal m "DISC_NAME"))
  else
    pyRStrip (" " ++ pyStr (getVal m "DISC_NAME"))

/-- `Metadata.GetOutputFilename` with `directory=None`.  When
`forced_filename` is set the stored filename is returned as-is. -/
def GetOutputFilename (m : MState) : String :=
  if m.forced_filename then pyStr m.filename
  else sanitizeFilename (baseTag m ++ versionTag m ++ discTag m ++ labelTag m ++ extWAV)

/-! ### `RandomChapterID` (src/flac_to_mka/mka/chapterid.py)

The class keeps a process-wide `ids : list[int]`; the constructor with
parameter `n` sets `self.n = n + 1` and, unless the pool is already longer
than `self.n`, draws random 16-digit integers into the set
`ids = set(RandomChapterID.ids)` until it has `self.n` members, then
appends `list(ids - set(old_ids))` to the pool.  The random source is
modelled as an oracle `gen : Nat → Nat`; `fuel` bounds the number of draws
(the Python `while` loop terminates with probability 1).  CPython set
iteration order for the appended block is unspecified; we use insertion
order, and none of the proved properties depend on the order within the
newly appended block. -/

def newIDs (gen : Nat → Nat) (old : List Nat) (target : Nat) :
    Nat → Nat → List Nat → List Nat
  | 0, _, acc => acc
  | fuel + 1, k, acc =>
    if target ≤ old.length + acc.length then acc
    else
      if gen k ∈ old ∨ gen k ∈ acc then newIDs gen old target fuel (k + 1) acc
      else newIDs gen old target fuel (k + 1) (acc ++ [gen k])

/-- Effect of `RandomChapterID.__init__(n)` on the process-wide pool. -/
def requestIDs (gen : Nat → Nat) (fuel : Nat) (pool : List Nat) (n : Nat) : List Nat :=
  if n + 1 < pool.length then pool
  else pool ++ newIDs gen pool.dedup (n + 1) fuel 0 []

/-- Python list indexing with negative-index wraparound (out of range gives
`IndexError`, modelled as `none`). -/
def pyListIndex (l : List Nat) (k : Int) : Option Nat :=
  if k < 0 then
    if (-k).toNat ≤ l.length then l.get? (l.length - (-k).toNat) else none
  else l.get? k.toNat

/-- `RandomChapterID.GetID`: `RandomChapterID.ids[0:self.n][n]`, where
`sz` is the object's `self.n` (requested count plus one). -/
def GetID (pool : List Nat) (sz : Nat) (k : Int) : Option Nat :=
  pyListIndex (pool.take sz) k

/-! ### `CueMetadata.ExtractTrackInformation`
(src/flac_to_mka/flac/metadata.py:629-679)

The Matroska time conversion `time.CueTimeToMKATime` operates on Python
floats; it is treated as an opaque collaborator `conv` here, since the
claim settled against this parser does not depend on the converted value. -/

abbrev StrDict := List (String × String)

def sdictLookup : StrDict → String → Option String
  | [], _ => none
  | (k', v) :: t, k => if k' == k then some v else sdictLookup t k

def sdictSet : StrDict → String → String → StrDict
  | [], k, v => [(k, v)]
  | (k', v') :: t, k, v => if k' == k then (k', v) :: t else (k', v') :: sdictSet t k v

/-- Left-to-right non-overlapping replacement of `pat` by `rep` on a
character list; `fuel` bounds the scan structurally. -/
def replaceChars (pat rep : List Char) : Nat → List Char → List Char
  | 0, l => l
  | fuel + 1, l =>
    match l with
    | [] => []
    | c :: t =>
      if (c :: t).take pat.length == pat then
        rep ++ replaceChars pat rep fuel ((c :: t).drop pat.length)
      else c :: replaceChars pat rep fuel t

/-- Python `s.replace(pat, rep)`; the empty-pattern case only arises here
with an empty replacement, where Python also returns `s` unchanged. -/
def pyReplace (s pat rep : String) : String :=
  if pat.data = [] then s
  else String.mk (replaceChars pat.data rep.data s.data.length s.data)

/-- Substring scan for Python `pat in s` (nonempty `pat`). -/
def containsChars (pat : List Char) : List Char → Bool
  | [] => decide (pat = [])
  | c :: t => if (c :: t).take pat.length == pat then true else containsChars pat t

/-- Python `pat in s`. -/
def pyContainsSub (s pat : String) : Bool :=
  containsChars pat.data s.data

/-- ASCII lower-casing of one character, as Python `str.lower` does for the
ASCII tag names appearing here. -/
def pyLowerChar (c : Char) : Char :=
  if 'A' ≤ c ∧ c ≤ 'Z' then Char.ofNat (c.toNat + 32) else c

/-- Python `s.lower()`. -/
def pyLower (s : String) : String :=
  String.mk (s.data.map pyLowerChar)

/-- Python `line.split(" ")[0]`. -/
def pyFirstField (s : String) : String :=
  String.mk (s.data.takeWhile (fun c => !(c == ' ')))

/-- `CueMetadata.ExtractProperty`: drop double quotes, drop every
occurrence of `name`, strip. -/
def ExtractProperty (line name : String) : String :=
  pyStrip (pyReplace (pyReplace line "\"" "") name "")

/-- `ExtractProperty(lines[0], "TRACK")[0:2].lstrip("0")`. -/
def trackNoOf (l0 : String) : String :=
  String.mk (((ExtractProperty l0 "TRACK").data.take 2).dropWhile (fun c => c == '0'))

/-- The `data` and `times` dictionaries built by the block loop. -/
structure BlockState where
  data : StrDict
  times : StrDict
deriving DecidableEq

/-- Tail of the loop body once the line has been stripped and had
`'INDEX '` fused and `'REM '` removed: `name = line.split(" ")[0]`,
`info = ExtractProperty(line, name)`, empty `info` is skipped, lines
containing `INDEX` feed `times` through the time conversion, the rest feed
`data`. -/
def blockStepTagged (conv : String → String) (st : BlockState) (line : String) : BlockState :=
  if ExtractProperty line (pyFirstField line) == "" then st
  else if pyContainsSub line "INDEX" then
    { st with
      times := sdictSet st.times (pyLower (pyFirstField line))
                 (conv (ExtractProperty line (pyFirstField line))) }
  else
    { st with
      data := sdictSet st.data (pyLower (pyFirstField line))
                (ExtractProperty line (pyFirstField line)) }

/-- One iteration of the `for line in lines[1:]` loop body. -/
def blockStep (conv : String → String) (st : BlockState) (rawline : String) : BlockState :=
  if pyStartsWith (pyStrip rawline) "PERFORMER" then st
  else blockStepTagged conv st
    (pyReplace (pyReplace (pyStrip rawline) "INDEX " "INDEX") "REM " "")

/-- The block loop over the 4-space-indented lines following the
`  TRACK` line. -/
def parseBlock (conv : String → String) (l0 : String) (rest : List String) : BlockState :=
  (rest.takeWhile (fun l => pyStartsWith l "    ")).foldl (blockStep conv)
    { data := [("track", trackNoOf l0)], times := [] }

/-- `for idx in ["index01", "index00"]: if idx in times: ... break`. -/
def chooseTime (times : StrDict) : Option String :=
  match sdictLookup times "index01" with
  | some t => some t
  | none => sdictLookup times "index00"

/-- Result record of `ExtractTrackInformation`; the source stores
`start_time` as one more key of the same dict. -/
structure CueTrack where
  data : StrDict
  start_time : String
deriving DecidableEq

def ExtractTrackInformation (conv : String → String) :
    List String → Except MetaErr CueTrack
  | [] => Except.error MetaErr.indexError
  | l0 :: rest =>
    match chooseTime (parseBlock conv l0 rest).times with
    | some t => Except.ok { data := (parseBlock conv l0 rest).data, start_time := t }
    | none =>
      Except.error (MetaErr.cueFormat ("No valid time codes found for track " ++ trackNoOf l0))

/-! ### `CueSheet.CreateCUE` (src/tools/flac/cuewriter.py:36-57)

`time.MKATimeToCueTime` is float-based and passed as the opaque
collaborator `conv`. -/

def valid_tags : List String := ["GENRE", "VERSION", "DISC_NAME", "LABEL", "ISSUE_DATE"]

/-- Python `str.zfill`. -/
def zfill (w : Nat) (s : String) : String :=
  if s.length < w then String.mk (List.replicate (w - s.length) '0') ++ s else s

/-- The four lines emitted for the `i`-th (0-based) track record. -/
def cueTrackBlock (conv : String → String) (artist : String) (i : Nat) (t : Track) :
    List String :=
  ["  TRACK " ++ zfill 2 (decRepr (i + 1)) ++ " AUDIO",
   "    TITLE \"" ++ (match t.subtitle with
     | some st => t.title ++ ": " ++ st
     | none => t.title) ++ "\"",
   "    PERFORMER \"" ++ artist ++ "\"",
   "    INDEX 01 " ++ conv t.start_time]

/-- The full CUE sheet line list built by `CreateCUE`; `self.mergedfile` is
`mdata.GetOutputFilename()`. -/
def CreateCUE (conv : String → String) (m : MState) : List String :=
  (["PERFORMER \"" ++ pyStr (getVal m "ARTIST") ++ "\"",
    "TITLE \"" ++ pyStr (getVal m "TITLE") ++ "\"",
    "REM DATE \"" ++ pyStr (getVal m "DATE_RECORDED") ++ "\""]
   ++ valid_tags.filterMap (fun tag =>
        match dictLookup m.data tag with
        | some v => some ("REM " ++ tag ++ " \"" ++ pyStr v ++ "\"")
        | none => none)
   ++ ["FILE \"" ++ GetOutputFilename m ++ "\" WAVE"])
  ++ (m.tracks.enum.map (fun p => cueTrackBlock conv (pyStr (getVal m "ARTIST")) p.1 p.2)).flatten

/-! ### `MultiDiscTagger` disc summaries (src/tools/mka/tagwriter.py:100-149) -/

/-- `tools.flac.metadata.GetDisc`: disc number with optional side suffix;
a record lacking `disc` raises `KeyError` (modelled as `none`). -/
def GetDisc (t : Track) : Option String :=
  match t.disc, t.side with
  | some d, some s => some (d ++ s)
  | some d, none => some d
  | none, _ => none

/-- `defaultdict(list)` append preserving first-seen key order. -/
def dgAdd : List (String × List (Nat × Nat)) → String → Nat × Nat →
    List (String × List (Nat × Nat))
  | [], k, p => [(k, [p])]
  | (k', ps) :: t, k, p =>
    if k' == k then (k', ps ++ [p]) :: t else (k', ps) :: dgAdd t k p

def dgLookup : List (String × List (Nat × Nat)) → String → Option (List (Nat × Nat))
  | [], _ => none
  | (k', ps) :: t, k => if k' == k then some ps else dgLookup t k

/-- The `self.discinfo` construction loop of `MultiDiscTagger.__init__`:
`for chapter_idx, track in enumerate(mdata.tracks): self.discinfo[GetDisc(track)].append({'index': chapter_idx, 'track': track['track']})`. -/
def discinfoGo : List Track → Nat → List (String × List (Nat × Nat)) →
    Option (List (String × List (Nat × Nat)))
  | [], _, acc => some acc
  | t :: ts, i, acc =>
    match GetDisc t with
    | some d => discinfoGo ts (i + 1) (dgAdd acc d (i, t.track))
    | none => none

def discinfo (tracks : List Track) : Option (List (String × List (Nat × Nat))) :=
  discinfoGo tracks 0 []

/-- `total_parts = max(int(ch['track']) for ch in chapter_idxs)` in
`MultiDiscTagger.CreateDiscTag`. -/
def discTagTotalParts (grp : List (Nat × Nat)) : Option Nat :=
  (grp.map Prod.snd).max?

/-! ### Dictionary lemmas -/

theorem dictLookup_cons (k' : String) (v' : PyVal) (t : TagDict) (k : String) :
    dictLookup ((k', v') :: t) k = if k' == k then some v' else dictLookup t k := rfl

theorem dictLookup_set_self (d : TagDict) (k : String) (v : PyVal) :
    dictLookup (dictSet d k v) k = some v := by
  induction d with
  | nil => simp [dictSet, dictLookup]
  | cons p t ih =>
    obtain ⟨k', v'⟩ := p
    unfold dictSet
    by_cases h : (k' == k) = true
    · rw [if_pos h]
      unfold dictLookup
      rw [if_pos h]
    · rw [if_neg h]
      unfold dictLookup
      rw [if_neg h]
      exact ih

theorem dictLookup_set_ne (d : TagDict) (k k2 : String) (v : PyVal) (h : k2 ≠ k) :
    dictLookup (dictSet d k v) k2 = dictLookup d k2 := by
  induction d with
  | nil =>
    simp only [dictSet, dictLookup]
    rw [if_neg (by simp [BEq.comm]; exact fun he => h he.symm)]
  | cons p t ih =>
    obtain ⟨k', v'⟩ := p
    unfold dictSet
    by_cases hk : (k' == k) = true
    · rw [if_pos hk]
      unfold dictLookup
      have : (k' == k2) = false := by
        have he : k' = k := eq_of_beq hk
        subst he
        exact beq_eq_false_iff_ne.2 (fun he2 => h he2.symm)
      rw [if_neg (by simp [this]), if_neg (by simp [this])]
    · rw [if_neg hk]
      unfold dictLookup
      by_cases h2 : (k' == k2) = true
      · rw [if_pos h2, if_pos h2]
      · rw [if_neg h2, if_neg h2]
        exact ih

theorem dictContains_set_self (d : TagDict) (k : String) (v : PyVal) :
    dictContains (dictSet d k v) k = true := by
  simp [dictContains, dictLookup_set_self]

theorem dictContains_set_ne (d : TagDict) (k k2 : String) (v : PyVal) (h : k2 ≠ k) :
    dictContains (dictSet d k v) k2 = dictContains d k2 := by
  simp [dictContains, dictLookup_set_ne d k k2 v h]

theorem dictLookup_del_ne (d : TagDict) (k k2 : String) (h : k2 ≠ k) :
    dictLookup (dictDel d k) k2 = dictLookup d k2 := by
  induction d with
  | nil => rfl
  | cons p t ih =>
    obtain ⟨k', v'⟩ := p
    unfold dictDel at ih ⊢
    rw [List.filter_cons]
    by_cases hk : (k' == k) = true
    · have he : k' = k := eq_of_beq hk
      subst he
      rw [if_neg (by simp), dictLookup_cons]
      rw [if_neg (by simp; exact fun he2 => h he2.symm)]
      exact ih
    · rw [if_pos (by simpa using hk), dictLookup_cons, dictLookup_cons]
      by_cases h2 : (k' == k2) = true
      · rw [if_pos h2, if_pos h2]
      · rw [if_neg h2, if_neg h2]
        exact ih

theorem dictLookup_del_self (d : TagDict) (k : String) :
    dictLookup (dictDel d k) k = none := by
  induction d with
  | nil => rfl
  | cons p t ih =>
    obtain ⟨k', v'⟩ := p
    unfold dictDel at ih ⊢
    rw [List.filter_cons]
    by_cases hk : (k' == k) = true
    · rw [if_neg (by simp; exact eq_of_beq hk)]
      exact ih
    · rw [if_pos (by simpa using hk), dictLookup_cons]
      rw [if_neg hk]
      exact ih

theorem dictContains_del_self (d : TagDict) (k : String) :
    dictContains (dictDel d k) k = false := by
  simp [dictContains, dictLookup_del_self]

theorem dictContains_del_ne (d : TagDict) (k k2 : String) (h : k2 ≠ k) :
    dictContains (dictDel d k) k2 = dictContains d k2 := by
  simp [dictContains, dictLookup_del_ne d k k2 h]

/-! ### Lemmas about the validation stages -/

theorem except_bind_ok {α β γ : Type} {x : Except α β} {f : β → Except α γ} {c : γ}
    (h : (x >>= f) = Except.ok c) : ∃ b, x = Except.ok b ∧ f b = Except.ok c := by
  cases x with
  | error e => exact absurd h (by simp [Bind.bind, Except.bind])
  | ok b => exact ⟨b, rfl, h⟩

theorem discNumberCheck_ok {m m' : MState} (h : discNumberCheck m = Except.ok m') :
    m' = m ∧ (dictContains m.data "PART_NUMBER" = true ↔ 1 < m.discs) := by
  unfold discNumberCheck at h
  split at h
  · exact absurd h (by simp)
  · split at h
    · exact absurd h (by simp)
    · next h1 h2 =>
      replace h : m = m' := by simpa using h
      subst h
      refine ⟨rfl, ?_⟩
      cases hb : dictContains m.data "PART_NUMBER" <;> simp [hb] at h1 h2 ⊢ <;> omega

theorem mediumCheck_ok {m m' : MState} (h : mediumCheck m = Except.ok m') :
    m' = { m with data := dictSet m.data "ORIGINAL_MEDIUM" (some "CD") } ∨ m' = m := by
  unfold mediumCheck at h
  split at h
  · left
    simpa using h.symm
  · split at h
    · exact absurd h (by simp)
    · right
      simpa using h.symm

theorem requiredCheck_ok {m m' : MState} (h : requiredCheck m = Except.ok m') :
    m' = m ∧ getVal m "TITLE" ≠ none ∧ getVal m "ARTIST" ≠ none ∧
      getVal m "GENRE" ≠ none ∧ getVal m "DATE_RECORDED" ≠ none := by
  unfold requiredCheck at h
  split at h
  · exact absurd h (by simp)
  · split at h
    · exact absurd h (by simp)
    · split at h
      · exact absurd h (by simp)
      · split at h
        · exact absurd h (by simp)
        · next h1 h2 h3 h4 =>
          replace h : m = m' := by simpa using h
          subst h
          exact ⟨rfl, h1, h2, h3, h4⟩

theorem stripEntries_lookup {d d' : TagDict} (h : stripEntries d = some d') (k : String) :
    dictLookup d' k = (dictLookup d k).map (fun v => v.map pyStrip) := by
  induction d generalizing d' with
  | nil =>
    simp only [stripEntries, Option.some.injEq] at h
    subst h
    rfl
  | cons p t ih =>
    obtain ⟨k', v'⟩ := p
    cases v' with
    | none => exact absurd h (by simp [stripEntries])
    | some v =>
      simp only [stripEntries, Option.map_eq_some'] at h
      obtain ⟨t', ht', hd⟩ := h
      subst hd
      unfold dictLookup
      by_cases hk : (k' == k) = true
      · rw [if_pos hk, if_pos hk]
        rfl
      · rw [if_neg hk, if_neg hk]
        exact ih ht'

theorem stripEntries_values {d d' : TagDict} (h : stripEntries d = some d') :
    ∀ k w, dictLookup d' k = some w → ∃ v, w = some (pyStrip v) := by
  intro k w hw
  rw [stripEntries_lookup h k] at hw
  cases hd : dictLookup d k with
  | none => rw [hd] at hw; exact absurd hw (by simp)
  | some v =>
    rw [hd] at hw
    cases v with
    | none =>
      exfalso
      have hl := stripEntries_lookup h k
      rw [hd] at hl
      -- a `none` value cannot survive `stripEntries`; derive contradiction directly
      clear hw hl
      induction d generalizing d' with
      | nil => simp [dictLookup] at hd
      | cons p t ih =>
        obtain ⟨k', v'⟩ := p
        cases v' with
        | none => exact absurd h (by simp [stripEntries])
        | some v0 =>
          simp only [stripEntries, Option.map_eq_some'] at h
          obtain ⟨t', ht', _⟩ := h
          unfold dictLookup at hd
          by_cases hk : (k' == k) = true
          · rw [if_pos hk] at hd
            exact absurd hd (by simp)
          · rw [if_neg hk] at hd
            exact ih ht' hd
    | some v0 =>
      simp only [Option.map_some'] at hw
      exact ⟨v0, by simpa using hw.symm⟩

theorem stripAllTags_ok {m m' : MState} (h : stripAllTags m = Except.ok m') :
    (∃ d', stripEntries m.data = some d' ∧ m' = { m with data := d' }) := by
  unfold stripAllTags at h
  split at h
  · next d' hd' => exact ⟨d', hd', by simpa using h.symm⟩
  · exact absurd h (by simp)

/-! ### Field preservation through the pipeline -/

@[simp] theorem setIfTruthy_tracks (m : MState) (k : String) (v : Option String) :
    (setIfTruthy m k v).tracks = m.tracks := by unfold setIfTruthy; split <;> rfl

@[simp] theorem setIfTruthy_channels (m : MState) (k : String) (v : Option String) :
    (setIfTruthy m k v).channels = m.channels := by unfold setIfTruthy; split <;> rfl

@[simp] theorem setIfTruthy_filename (m : MState) (k : String) (v : Option String) :
    (setIfTruthy m k v).filename = m.filename := by unfold setIfTruthy; split <;> rfl

@[simp] theorem setIfTruthy_forced (m : MState) (k : String) (v : Option String) :
    (setIfTruthy m k v).forced_filename = m.forced_filename := by
  unfold setIfTruthy; split <;> rfl

@[simp] theorem mergeIssueDate_tracks (a : Args) (m : MState) :
    (mergeIssueDate a m).tracks = m.tracks := by unfold mergeIssueDate; split <;> rfl

@[simp] theorem mergeIssueDate_channels (a : Args) (m : MState) :
    (mergeIssueDate a m).channels = m.channels := by unfold mergeIssueDate; split <;> rfl

@[simp] theorem mergeIssueDate_filename (a : Args) (m : MState) :
    (mergeIssueDate a m).filename = m.filename := by unfold mergeIssueDate; split <;> rfl

@[simp] theorem mergeIssueDate_forced (a : Args) (m : MState) :
    (mergeIssueDate a m).forced_filename = m.forced_filename := by
  unfold mergeIssueDate; split <;> rfl

@[simp] theorem mergeDiscOnly_tracks (a : Args) (m : MState) :
    (mergeDiscOnly a m).tracks = m.tracks := by unfold mergeDiscOnly; split <;> rfl

@[simp] theorem mergeDiscOnly_channels (a : Args) (m : MState) :
    (mergeDiscOnly a m).channels = m.channels := by unfold mergeDiscOnly; split <;> rfl

@[simp] theorem mergeDiscOnly_filename (a : Args) (m : MState) :
    (mergeDiscOnly a m).filename = m.filename := by unfold mergeDiscOnly; split <;> rfl

@[simp] theorem mergeDiscOnly_forced (a : Args) (m : MState) :
    (mergeDiscOnly a m).forced_filename = m.forced_filename := by
  unfold mergeDiscOnly; split <;> rfl

@[simp] theorem mergeDiscsOnly_tracks (a : Args) (m : MState) :
    (mergeDiscsOnly a m).tracks = m.tracks := by
  unfold mergeDiscsOnly; split <;> first | rfl | (split <;> rfl)

@[simp] theorem mergeDiscsOnly_channels (a : Args) (m : MState) :
    (mergeDiscsOnly a m).channels = m.channels := by
  unfold mergeDiscsOnly; split <;> first | rfl | (split <;> rfl)

@[simp] theorem mergeDiscsOnly_filename (a : Args) (m : MState) :
    (mergeDiscsOnly a m).filename = m.filename := by
  unfold mergeDiscsOnly; split <;> first | rfl | (split <;> rfl)

@[simp] theorem mergeDiscsOnly_forced (a : Args) (m : MState) :
    (mergeDiscsOnly a m).forced_filename = m.forced_filename := by
  unfold mergeDiscsOnly; split <;> first | rfl | (split <;> rfl)

@[simp] theorem mergeBoth_tracks (a : Args) (m : MState) :
    (mergeBoth a m).tracks = m.tracks := by unfold mergeBoth; split <;> rfl

@[simp] theorem mergeBoth_channels (a : Args) (m : MState) :
    (mergeBoth a m).channels = m.channels := by unfold mergeBoth; split <;> rfl

@[simp] theorem mergeBoth_filename (a : Args) (m : MState) :
    (mergeBoth a m).filename = m.filename := by unfold mergeBoth; split <;> rfl

@[simp] theorem mergeBoth_forced (a : Args) (m : MState) :
    (mergeBoth a m).forced_filename = m.forced_filename := by unfold mergeBoth; split <;> rfl

@[simp] theorem mergeNodiscs_tracks (a : Args) (m : MState) :
    (mergeNodiscs a m).tracks = m.tracks := by unfold mergeNodiscs; split <;> rfl

@[simp] theorem mergeNodiscs_channels (a : Args) (m : MState) :
    (mergeNodiscs a m).channels = m.channels := by unfold mergeNodiscs; split <;> rfl

@[simp] theorem mergeNodiscs_filename (a : Args) (m : MState) :
    (mergeNodiscs a m).filename = m.filename := by unfold mergeNodiscs; split <;> rfl

@[simp] theorem mergeNodiscs_forced (a : Args) (m : MState) :
    (mergeNodiscs a m).forced_filename = m.forced_filename := by
  unfold mergeNodiscs; split <;> rfl

theorem mergeState_tracks (a : Args) (m : MState) : (mergeState a m).tracks = m.tracks := by
  unfold mergeState; simp

theorem mergeState_channels (a : Args) (m : MState) :
    (mergeState a m).channels = m.channels := by unfold mergeState; simp

theorem mergeState_filename (a : Args) (m : MState) :
    (mergeState a m).filename = m.filename := by unfold mergeState; simp

theorem mergeState_forced (a : Args) (m : MState) :
    (mergeState a m).forced_filename = m.forced_filename := by unfold mergeState; simp

@[simp] theorem labelIssueFix_tracks (m : MState) : (labelIssueFix m).tracks = m.tracks := by
  unfold labelIssueFix; split <;> rfl

@[simp] theorem labelIssueFix_discs (m : MState) : (labelIssueFix m).discs = m.discs := by
  unfold labelIssueFix; split <;> rfl

@[simp] theorem labelIssueFix_channels (m : MState) : (labelIssueFix m).channels = m.channels := by
  unfold labelIssueFix; split <;> rfl

@[simp] theorem labelIssueFix_filename (m : MState) : (labelIssueFix m).filename = m.filename := by
  unfold labelIssueFix; split <;> rfl

@[simp] theorem labelIssueFix_forced (m : MState) :
    (labelIssueFix m).forced_filename = m.forced_filename := by
  unfold labelIssueFix; split <;> rfl

theorem labelIssueFix_contains_ne (m : MState) (k : String)
    (h1 : k ≠ "ISSUE_DATE") (h2 : k ≠ "LABEL") :
    dictContains (labelIssueFix m).data k = dictContains m.data k := by
  unfold labelIssueFix
  split
  · show dictContains (dictDel (dictDel m.data "ISSUE_DATE") "LABEL") k = _
    rw [dictContains_del_ne _ _ _ h2, dictContains_del_ne _ _ _ h1]
  · rfl

theorem labelIssueFix_label_eq (m : MState) :
    dictContains (labelIssueFix m).data "LABEL"
      = dictContains (labelIssueFix m).data "ISSUE_DATE" := by
  unfold labelIssueFix
  split
  · show dictContains (dictDel (dictDel m.data "ISSUE_DATE") "LABEL") "LABEL"
      = dictContains (dictDel (dictDel m.data "ISSUE_DATE") "LABEL") "ISSUE_DATE"
    rw [dictContains_del_self,
        dictContains_del_ne _ _ _ (by decide : ("ISSUE_DATE" : String) ≠ "LABEL"),
        dictContains_del_self]
  · next h =>
    have h' : dictContains m.data "ISSUE_DATE" = dictContains m.data "LABEL" := by
      simpa using h
    exact h'.symm

theorem validate_parts {m m' : MState} (h : Validate m = Except.ok m') :
    ∃ m2 m3 m4, discNumberCheck (labelIssueFix m) = Except.ok m2 ∧
      mediumCheck m2 = Except.ok m3 ∧ requiredCheck m3 = Except.ok m4 ∧
      stripAllTags m4 = Except.ok m' := by
  unfold Validate at h
  obtain ⟨m2, h2, h⟩ := except_bind_ok h
  obtain ⟨m3, h3, h⟩ := except_bind_ok h
  obtain ⟨m4, h4, h⟩ := except_bind_ok h
  exact ⟨m2, m3, m4, h2, h3, h4, h⟩

theorem stripAllTags_contains {m m' : MState} (h : stripAllTags m = Except.ok m') (k : String) :
    dictContains m'.data k = dictContains m.data k := by
  obtain ⟨d', hd', he⟩ := stripAllTags_ok h
  subst he
  show dictContains d' k = _
  unfold dictContains
  rw [stripEntries_lookup hd' k]
  cases dictLookup m.data k <;> rfl

theorem stripAllTags_getVal_ne_none {m m' : MState} (h : stripAllTags m = Except.ok m')
    (k : String) : getVal m' k ≠ none := by
  obtain ⟨d', hd', he⟩ := stripAllTags_ok h
  subst he
  show getVal { m with data := d' } k ≠ none
  unfold getVal
  cases hw : dictLookup d' k with
  | none => simp
  | some w =>
    obtain ⟨v, hv⟩ := stripEntries_values hd' k w hw
    subst hv
    simp

theorem validate_ok_fields {m m' : MState} (h : Validate m = Except.ok m') :
    m'.tracks = m.tracks ∧ m'.discs = m.discs ∧ m'.channels = m.channels ∧
      m'.filename = m.filename ∧ m'.forced_filename = m.forced_filename := by
  obtain ⟨m2, m3, m4, h2, h3, h4, h5⟩ := validate_parts h
  obtain ⟨he2, -⟩ := discNumberCheck_ok h2
  subst he2
  obtain ⟨he4, -, -, -, -⟩ := requiredCheck_ok h4
  subst he4
  obtain ⟨d', -, he5⟩ := stripAllTags_ok h5
  subst he5
  rcases mediumCheck_ok h3 with he3 | he3 <;> subst he3 <;>
    exact ⟨labelIssueFix_tracks m, labelIssueFix_discs m, labelIssueFix_channels m,
      labelIssueFix_filename m, labelIssueFix_forced m⟩

theorem validate_ok_PN_iff {m m' : MState} (h : Validate m = Except.ok m') :
    dictContains m'.data "PART_NUMBER" = true ↔ 1 < m'.discs := by
  obtain ⟨m2, m3, m4, h2, h3, h4, h5⟩ := validate_parts h
  obtain ⟨he2, hiff⟩ := discNumberCheck_ok h2
  subst he2
  obtain ⟨he4, -, -, -, -⟩ := requiredCheck_ok h4
  rw [he4] at h5
  have hPN : dictContains m'.data "PART_NUMBER" = dictContains m3.data "PART_NUMBER" :=
    stripAllTags_contains h5 "PART_NUMBER"
  obtain ⟨d', -, he5⟩ := stripAllTags_ok h5
  rcases mediumCheck_ok h3 with he3 | he3 <;> subst he3
  · subst he5
    rw [hPN]
    show dictContains (dictSet _ "ORIGINAL_MEDIUM" _) "PART_NUMBER" = true ↔ _
    rw [dictContains_set_ne _ _ _ _ (by decide : ("PART_NUMBER" : String) ≠ "ORIGINAL_MEDIUM")]
    exact hiff
  · subst he5
    rw [hPN]
    exact hiff

theorem validate_ok_label_eq {m m' : MState} (h : Validate m = Except.ok m') :
    dictContains m'.data "LABEL" = dictContains m'.data "ISSUE_DATE" := by
  obtain ⟨m2, m3, m4, h2, h3, h4, h5⟩ := validate_parts h
  obtain ⟨he2, -⟩ := discNumberCheck_ok h2
  subst he2
  obtain ⟨he4, -, -, -, -⟩ := requiredCheck_ok h4
  subst he4
  rw [stripAllTags_contains h5 "LABEL", stripAllTags_contains h5 "ISSUE_DATE"]
  rcases mediumCheck_ok h3 with he3 | he3 <;> subst he3
  · show dictContains (dictSet _ "ORIGINAL_MEDIUM" _) "LABEL"
      = dictContains (dictSet _ "ORIGINAL_MEDIUM" _) "ISSUE_DATE"
    rw [dictContains_set_ne _ _ _ _ (by decide : ("LABEL" : String) ≠ "ORIGINAL_MEDIUM"),
        dictContains_set_ne _ _ _ _ (by decide : ("ISSUE_DATE" : String) ≠ "ORIGINAL_MEDIUM")]
    exact labelIssueFix_label_eq m
  · exact labelIssueFix_label_eq m

theorem validate_ok_getVal_ne_none {m m' : MState} (h : Validate m = Except.ok m')
    (k : String) : getVal m' k ≠ none := by
  obtain ⟨m2, m3, m4, h2, h3, h4, h5⟩ := validate_parts h
  exact stripAllTags_getVal_ne_none h5 k

/-! ### Finalize and constructTail lemmas -/

theorem getVal_set_self (m : MState) (k : String) (v : PyVal) :
    getVal { m with data := dictSet m.data k v } k = v := by
  unfold getVal
  show (match dictLookup (dictSet m.data k v) k with
    | some w => w | none => some "") = v
  rw [dictLookup_set_self]

theorem getVal_set_ne (m : MState) (k k2 : String) (v : PyVal) (h : k2 ≠ k) :
    getVal { m with data := dictSet m.data k v } k2 = getVal m k2 := by
  unfold getVal
  show (match dictLookup (dictSet m.data k v) k2 with
    | some w => w | none => some "") = _
  rw [dictLookup_set_ne _ _ _ _ h]

theorem getVal_del_self (m : MState) (k : String) :
    getVal { m with data := dictDel m.data k } k = some "" := by
  unfold getVal
  show (match dictLookup (dictDel m.data k) k with
    | some w => w | none => some "") = some ""
  rw [dictLookup_del_self]

theorem getVal_del_ne (m : MState) (k k2 : String) (h : k2 ≠ k) :
    getVal { m with data := dictDel m.data k } k2 = getVal m k2 := by
  unfold getVal
  show (match dictLookup (dictDel m.data k) k2 with
    | some w => w | none => some "") = _
  rw [dictLookup_del_ne _ _ _ h]

theorem finalizeSumparts_true_ok {m m' : MState} (h : finalizeSumparts true m = Except.ok m') :
    ∃ mx, (m.tracks.map Track.track).max? = some mx ∧
      m' = { m with data := dictSet m.data "TOTAL_PARTS" (some (decRepr mx)) } := by
  unfold finalizeSumparts at h
  rw [if_pos rfl] at h
  split at h
  · next mx hmx => exact ⟨mx, hmx, by simpa using h.symm⟩
  · exact absurd h (by simp)

theorem finalizeSumparts_false_ok {m m' : MState} (h : finalizeSumparts false m = Except.ok m') :
    dictContains m'.data "TOTAL_PARTS" = false ∧
      (m' = { m with data := dictDel m.data "TOTAL_PARTS" } ∨ m' = m) := by
  unfold finalizeSumparts at h
  rw [if_neg (by simp)] at h
  split at h
  · replace h : { m with data := dictDel m.data "TOTAL_PARTS" } = m' := by simpa using h
    subst h
    exact ⟨dictContains_del_self m.data "TOTAL_PARTS", Or.inl rfl⟩
  · next hc =>
    replace h : m = m' := by simpa using h
    subst h
    exact ⟨by simpa using hc, Or.inr rfl⟩

theorem finalizeYear_ok {m m' : MState} (h : finalizeYear m = Except.ok m') :
    m' = m ∨ ∃ y, m' = { m with data := dictSet m.data "DATE_RECORDED" (some y) } := by
  unfold finalizeYear at h
  split at h
  · exact absurd h (by simp)
  · split at h
    · exact Or.inl (by simpa using h.symm)
    · split at h
      · next y hy => exact Or.inr ⟨y, by simpa using h.symm⟩
      · exact absurd h (by simp)

theorem finalize_parts {sp : Bool} {m m' : MState} (h : Finalize sp m = Except.ok m') :
    ∃ m1, finalizeSumparts sp m = Except.ok m1 ∧ finalizeYear m1 = Except.ok m' := by
  unfold Finalize at h
  exact except_bind_ok h

theorem finalize_ok_fields {sp : Bool} {m m' : MState} (h : Finalize sp m = Except.ok m') :
    m'.tracks = m.tracks ∧ m'.discs = m.discs ∧ m'.channels = m.channels ∧
      m'.filename = m.filename ∧ m'.forced_filename = m.forced_filename := by
  obtain ⟨m1, h1, h2⟩ := finalize_parts h
  have f1 : m1.tracks = m.tracks ∧ m1.discs = m.discs ∧ m1.channels = m.channels ∧
      m1.filename = m.filename ∧ m1.forced_filename = m.forced_filename := by
    cases sp
    · obtain ⟨-, hc⟩ := finalizeSumparts_false_ok h1
      rcases hc with he | he <;> subst he <;> exact ⟨rfl, rfl, rfl, rfl, rfl⟩
    · obtain ⟨mx, -, he⟩ := finalizeSumparts_true_ok h1
      subst he
      exact ⟨rfl, rfl, rfl, rfl, rfl⟩
  rcases finalizeYear_ok h2 with he | ⟨y, he⟩ <;> subst he <;> exact f1

theorem finalize_ok_lookup_ne {sp : Bool} {m m' : MState} (h : Finalize sp m = Except.ok m')
    (k : String) (h1 : k ≠ "TOTAL_PARTS") (h2 : k ≠ "DATE_RECORDED") :
    dictLookup m'.data k = dictLookup m.data k := by
  obtain ⟨m1, hs1, hs2⟩ := finalize_parts h
  have f1 : dictLookup m1.data k = dictLookup m.data k := by
    cases sp
    · obtain ⟨-, hc⟩ := finalizeSumparts_false_ok hs1
      rcases hc with he | he <;> subst he
      · exact dictLookup_del_ne _ _ _ h1
      · rfl
    · obtain ⟨mx, -, he⟩ := finalizeSumparts_true_ok hs1
      subst he
      exact dictLookup_set_ne _ _ _ _ h1
  rcases finalizeYear_ok hs2 with he | ⟨y, he⟩ <;> subst he
  · exact f1
  · rw [show ({ m1 with data := dictSet m1.data "DATE_RECORDED" (some y) } : MState).data
        = dictSet m1.data "DATE_RECORDED" (some y) from rfl,
      dictLookup_set_ne _ _ _ _ h2]
    exact f1

theorem finalize_ok_getVal_ne_none {sp : Bool} {m m' : MState}
    (h : Finalize sp m = Except.ok m') (hm : ∀ k, getVal m k ≠ none) (k : String) :
    getVal m' k ≠ none := by
  obtain ⟨m1, hs1, hs2⟩ := finalize_parts h
  have f1 : ∀ k2, getVal m1 k2 ≠ none := by
    intro k2
    cases sp
    · obtain ⟨-, hc⟩ := finalizeSumparts_false_ok hs1
      rcases hc with he | he <;> subst he
      · by_cases hk : k2 = "TOTAL_PARTS"
        · subst hk
          rw [getVal_del_self]
          simp
        · rw [getVal_del_ne _ _ _ hk]
          exact hm k2
      · exact hm k2
    · obtain ⟨mx, -, he⟩ := finalizeSumparts_true_ok hs1
      subst he
      by_cases hk : k2 = "TOTAL_PARTS"
      · subst hk
        rw [getVal_set_self]
        simp
      · rw [getVal_set_ne _ _ _ _ hk]
        exact hm k2
  rcases finalizeYear_ok hs2 with he | ⟨y, he⟩ <;> subst he
  · exact f1 k
  · by_cases hk : k = "DATE_RECORDED"
    · subst hk
      rw [getVal_set_self]
      simp
    · rw [getVal_set_ne _ _ _ _ hk]
      exact f1 k

theorem constructTail_parts {sp : Bool} {args : Option Args} {m m' : MState}
    (h : constructTail sp args m = Except.ok m') :
    ∃ mv mr, MergeWithArgs args m = Except.ok mv ∧ Validate mv = Except.ok mr ∧
      Finalize sp mr = Except.ok m' := by
  unfold constructTail at h
  obtain ⟨mv, h1, h⟩ := except_bind_ok h
  obtain ⟨mr, h2, h⟩ := except_bind_ok h
  exact ⟨mv, mr, h1, h2, h⟩

theorem mergeWithArgs_ok_exists {args : Option Args} {m mv : MState}
    (h : MergeWithArgs args m = Except.ok mv) :
    ∃ m0, Validate m0 = Except.ok mv ∧ m0.tracks = m.tracks ∧ m0.channels = m.channels ∧
      m0.filename = m.filename ∧ m0.forced_filename = m.forced_filename := by
  cases args with
  | none => exact ⟨m, h, rfl, rfl, rfl, rfl⟩
  | some a =>
    exact ⟨mergeState a m, h, mergeState_tracks a m, mergeState_channels a m,
      mergeState_filename a m, mergeState_forced a m⟩

theorem constructTail_ok_tracks {sp : Bool} {args : Option Args} {m m' : MState}
    (h : constructTail sp args m = Except.ok m') : m'.tracks = m.tracks := by
  obtain ⟨mv, mr, h1, h2, h3⟩ := constructTail_parts h
  obtain ⟨m0, hv0, ht0, -, -, -⟩ := mergeWithArgs_ok_exists h1
  obtain ⟨htv, -, -, -, -⟩ := validate_ok_fields hv0
  obtain ⟨htr, -, -, -, -⟩ := validate_ok_fields h2
  obtain ⟨htf, -, -, -, -⟩ := finalize_ok_fields h3
  rw [htf, htr, htv, ht0]

theorem except_ok_bind {α β γ : Type} (b : β) (f : β → Except α γ) :
    (Except.ok b >>= f : Except α γ) = f b := rfl

theorem mergeWithArgs_some (a : Args) (m : MState) :
    MergeWithArgs (some a) m = Validate (mergeState a m) := rfl

theorem constructTail_PN_iff {sp : Bool} {args : Option Args} {m m' : MState}
    (h : constructTail sp args m = Except.ok m') :
    dictContains m'.data "PART_NUMBER" = true ↔ 1 < m'.discs := by
  obtain ⟨mv, mr, h1, h2, h3⟩ := constructTail_parts h
  have hiff := validate_ok_PN_iff h2
  have hlk := finalize_ok_lookup_ne h3 "PART_NUMBER" (by decide) (by decide)
  obtain ⟨-, hd, -, -, -⟩ := finalize_ok_fields h3
  rw [show dictContains m'.data "PART_NUMBER" = dictContains mr.data "PART_NUMBER" from by
        unfold dictContains; rw [hlk],
      hd]
  exact hiff

/-! ### Concrete states for the CLI-override scenarios

`cleanState` stands for the post-extraction state of a source carrying the
four required tags, an explicit CD medium, and no disc information at all
(`discs = 1`, no `PART_NUMBER`). -/

def cleanState : MState :=
  { data := [("TITLE", some "A"), ("ARTIST", some "B"), ("GENRE", some "C"),
             ("DATE_RECORDED", some "2001"), ("ORIGINAL_MEDIUM", some "CD")] }

/-- `cleanState` after a successful joint `--disc ks --discs d` override. -/
def cleanWithPN (ks : String) (d : Nat) : MState :=
  { data := [("TITLE", some "A"), ("ARTIST", some "B"), ("GENRE", some "C"),
             ("DATE_RECORDED", some "2001"), ("ORIGINAL_MEDIUM", some "CD"),
             ("PART_NUMBER", some ks)], discs := d }

/-- CLI bundle supplying both `--disc` and `--discs`. -/
def bothArgs (ks : String) (d : Nat) : Args := { disc := some ks, discs := some d }

/-- CLI bundle supplying only `--disc`. -/
def discOnlyArgs (ks : String) : Args := { disc := some ks }

/-- CLI bundle supplying only `--discs`. -/
def discsOnlyArgs (d : Nat) : Args := { discs := some d }

theorem mergeState_bothArgs (ks : String) (d : Nat) (hks : ks ≠ "") :
    mergeState (bothArgs ks d) cleanState = cleanWithPN ks d := by
  unfold mergeState
  show mergeNodiscs _ (mergeBoth _ (mergeDiscsOnly _ (mergeDiscOnly _ cleanState))) = _
  have h9 : mergeDiscOnly (bothArgs ks d) cleanState = cleanState := by
    unfold mergeDiscOnly
    rw [show decide (1 < cleanState.discs) = false from rfl, Bool.and_false]
    rfl
  have h11 : mergeBoth (bothArgs ks d) cleanState = cleanWithPN ks d := by
    unfold mergeBoth
    rw [if_pos]
    · rfl
    · show (pyTruthy (bothArgs ks d).disc && ((bothArgs ks d).discs).isSome) = true
      rw [show ((bothArgs ks d).discs).isSome = true from rfl, Bool.and_true]
      show pyTruthy (some ks) = true
      simpa [pyTruthy, bne_iff_ne] using hks
  rw [h9, show mergeDiscsOnly (bothArgs ks d) cleanState = cleanState from rfl, h11]
  rfl

theorem validate_cleanWithPN (ks : String) (d : Nat) (hks : pyStrip ks = ks) (hd : 2 ≤ d) :
    Validate (cleanWithPN ks d) = Except.ok (cleanWithPN ks d) := by
  have h1 : labelIssueFix (cleanWithPN ks d) = cleanWithPN ks d := by
    unfold labelIssueFix
    exact if_neg (fun hcon => Bool.noConfusion hcon)
  have hc1 : ¬(1 < (cleanWithPN ks d).discs ∧
      dictContains (cleanWithPN ks d).data "PART_NUMBER" = false) := by
    intro hcon
    exact Bool.noConfusion hcon.2
  have hc2 : ¬(dictContains (cleanWithPN ks d).data "PART_NUMBER" = true ∧
      (cleanWithPN ks d).discs < 2) := by
    intro hcon
    have hlt : d < 2 := hcon.2
    omega
  have h2 : discNumberCheck (cleanWithPN ks d) = Except.ok (cleanWithPN ks d) := by
    unfold discNumberCheck
    rw [if_neg hc1, if_neg hc2]
  have h5 : stripAllTags (cleanWithPN ks d) = Except.ok (cleanWithPN ks d) := by
    unfold stripAllTags
    have e1 : pyStrip "A" = "A" := rfl
    have e2 : pyStrip "B" = "B" := rfl
    have e3 : pyStrip "C" = "C" := rfl
    have e4 : pyStrip "2001" = "2001" := rfl
    have e5 : pyStrip "CD" = "CD" := rfl
    have hse : stripEntries (cleanWithPN ks d).data = some (cleanWithPN ks d).data := by
      show stripEntries [("TITLE", some "A"), ("ARTIST", some "B"), ("GENRE", some "C"),
          ("DATE_RECORDED", some "2001"), ("ORIGINAL_MEDIUM", some "CD"),
          ("PART_NUMBER", some ks)]
        = some [("TITLE", some "A"), ("ARTIST", some "B"), ("GENRE", some "C"),
          ("DATE_RECORDED", some "2001"), ("ORIGINAL_MEDIUM", some "CD"),
          ("PART_NUMBER", some ks)]
      simp [stripEntries, e1, e2, e3, e4, e5, hks]
    rw [hse]
  unfold Validate
  rw [h1, h2, except_ok_bind,
      show mediumCheck (cleanWithPN ks d) = Except.ok (cleanWithPN ks d) from rfl,
      except_ok_bind,
      show requiredCheck (cleanWithPN ks d) = Except.ok (cleanWithPN ks d) from rfl,
      except_ok_bind, h5]

theorem constructTail_bothArgs (k d : Nat) (hd : 2 ≤ d) :
    constructTail false (some (bothArgs (decRepr k) d)) cleanState
      = Except.ok (cleanWithPN (decRepr k) d) := by
  have hmerge := mergeState_bothArgs (decRepr k) d (decRepr_ne_empty k)
  have hval := validate_cleanWithPN (decRepr k) d (pyStrip_decRepr k) hd
  have hfin : Finalize false (cleanWithPN (decRepr k) d)
      = Except.ok (cleanWithPN (decRepr k) d) := rfl
  unfold constructTail
  rw [mergeWithArgs_some, hmerge, hval, except_ok_bind, hval, except_ok_bind, hfin]

theorem mergeState_discOnly (ks : String) :
    mergeState (discOnlyArgs ks) cleanState = cleanState := by
  unfold mergeState
  show mergeNodiscs _ (mergeBoth _ (mergeDiscsOnly _ (mergeDiscOnly _ cleanState))) = _
  have h9 : mergeDiscOnly (discOnlyArgs ks) cleanState = cleanState := by
    unfold mergeDiscOnly
    rw [show decide (1 < cleanState.discs) = false from rfl, Bool.and_false]
    rfl
  have h11 : mergeBoth (discOnlyArgs ks) cleanState = cleanState := by
    unfold mergeBoth
    rw [show ((discOnlyArgs ks).discs).isSome = false from rfl, Bool.and_false]
    rfl
  rw [h9, show mergeDiscsOnly (discOnlyArgs ks) cleanState = cleanState from rfl, h11]
  rfl

theorem constructTail_discOnly (ks : String) :
    constructTail false (some (discOnlyArgs ks)) cleanState = Except.ok cleanState := by
  have hval : Validate cleanState = Except.ok cleanState := rfl
  unfold constructTail
  rw [mergeWithArgs_some, mergeState_discOnly ks, hval, except_ok_bind, hval, except_ok_bind]
  rfl

theorem constructTail_discsOnly (d : Nat) :
    constructTail false (some (discsOnlyArgs d)) cleanState = Except.ok cleanState := by
  have hms : mergeState (discsOnlyArgs d) cleanState = cleanState := rfl
  have hval : Validate cleanState = Except.ok cleanState := rfl
  unfold constructTail
  rw [mergeWithArgs_some, hms, hval, except_ok_bind, hval, except_ok_bind]
  rfl

/-- C1 (amended): for every Metadata construction that completes
successfully, `PART_NUMBER` is present iff `discs > 1`.  For disc counts
`d ≥ 2` and disc numbers `1 ≤ k ≤ d` supplied as CLI overrides over a
source state carrying no disc information, `PART_NUMBER` round-trips (with
`discs = d`) iff both the `disc` and `discs` overrides are supplied
together; supplying only one of them is silently ignored — construction
succeeds with `PART_NUMBER` absent and `discs = 1` — rather than failing
with `DiscConfigurationError`. -/
theorem C1_part_number_discs :
    (∀ (sumparts : Bool) (args : Option Args) (m m' : MState),
        constructTail sumparts args m = Except.ok m' →
        (dictContains m'.data "PART_NUMBER" = true ↔ 1 < m'.discs))
    ∧ (∀ d k : Nat, 2 ≤ d → 1 ≤ k → k ≤ d →
        ∃ m', constructTail false (some (bothArgs (decRepr k) d)) cleanState = Except.ok m'
          ∧ getVal m' "PART_NUMBER" = some (decRepr k) ∧ m'.discs = d)
    ∧ (∀ d k : Nat, 2 ≤ d → 1 ≤ k → k ≤ d →
        constructTail false (some (discOnlyArgs (decRepr k))) cleanState = Except.ok cleanState
          ∧ constructTail false (some (discsOnlyArgs d)) cleanState = Except.ok cleanState
          ∧ dictContains cleanState.data "PART_NUMBER" = false ∧ cleanState.discs = 1) := by
  refine ⟨?_, ?_, ?_⟩
  · intro sp args m m' h
    exact constructTail_PN_iff h
  · intro d k hd _ _
    exact ⟨cleanWithPN (decRepr k) d, constructTail_bothArgs k d hd, rfl, rfl⟩
  · intro d k _ _ _
    exact ⟨constructTail_discOnly (decRepr k), constructTail_discsOnly d, rfl, rfl⟩

/-- C1 counterexample: the claim asserts that supplying only one of the
`disc`/`discs` CLI overrides makes construction fail with
`DiscConfigurationError`; over a disc-less source state, construction
in fact succeeds (the lone override is ignored). -/
theorem C1_counterexample_lone_override :
    constructTail false (some (discOnlyArgs "1")) cleanState = Except.ok cleanState
      ∧ constructTail false (some (discsOnlyArgs 2)) cleanState = Except.ok cleanState :=
  ⟨constructTail_discOnly "1", constructTail_discsOnly 2⟩

/-- C1 witness: the main theorem applied at `d = 2`, `k = 1` and at a
concrete successful construction. -/
theorem C1_part_number_discs_witness :
    (dictContains cleanState.data "PART_NUMBER" = true ↔ 1 < cleanState.discs)
      ∧ (∃ m', constructTail false (some (bothArgs (decRepr 1) 2)) cleanState = Except.ok m'
          ∧ getVal m' "PART_NUMBER" = some (decRepr 1) ∧ m'.discs = 2) :=
  ⟨C1_part_number_discs.1 false none cleanState cleanState rfl,
   C1_part_number_discs.2.1 2 1 (by decide) (by decide) (by decide)⟩

/-- C2 (amended): construction fails with tag-not-found only when a
required tag is unset (`None`); for every successfully constructed state
the four required keys never read as `None` — they carry strings, which
may however be empty, since the code checks `self[tag] is None` and not
emptiness. -/
theorem C2_required_tags_not_none :
    ∀ (sumparts : Bool) (args : Option Args) (m m' : MState),
      constructTail sumparts args m = Except.ok m' →
      getVal m' "TITLE" ≠ none ∧ getVal m' "ARTIST" ≠ none ∧
        getVal m' "GENRE" ≠ none ∧ getVal m' "DATE_RECORDED" ≠ none := by
  intro sp args m m' h
  obtain ⟨mv, mr, h1, h2, h3⟩ := constructTail_parts h
  have hv := validate_ok_getVal_ne_none h2
  exact ⟨finalize_ok_getVal_ne_none h3 hv _, finalize_ok_getVal_ne_none h3 hv _,
    finalize_ok_getVal_ne_none h3 hv _, finalize_ok_getVal_ne_none h3 hv _⟩

/-- The post-extraction state of a source whose album tag exists but is the
empty string. -/
def emptyTitleState : MState :=
  { data := [("TITLE", some ""), ("ARTIST", some "B"), ("GENRE", some "C"),
             ("DATE_RECORDED", some "2001"), ("ORIGINAL_MEDIUM", some "CD")] }

/-- C2 counterexample: the claim asserts construction fails whenever a
required key is empty after merging; a state whose `TITLE` is present but
empty passes construction unchanged, with `TITLE` still the empty
string. -/
theorem C2_counterexample_empty_title :
    constructTail false none emptyTitleState = Except.ok emptyTitleState
      ∧ getVal emptyTitleState "TITLE" = some "" := ⟨rfl, rfl⟩

/-- C2 witness: the amended theorem applied at a concrete successful
construction. -/
theorem C2_required_tags_witness :
    getVal cleanState "TITLE" ≠ none ∧ getVal cleanState "ARTIST" ≠ none ∧
      getVal cleanState "GENRE" ≠ none ∧ getVal cleanState "DATE_RECORDED" ≠ none :=
  C2_required_tags_not_none false none cleanState cleanState rfl

/-! ### C9: the LABEL/ISSUE_DATE pairing -/

/-- The state with both `ISSUE_DATE` and `LABEL` removed, as produced by
the first step of `_Validate` when their presence differs. -/
def removeBothLI (m : MState) : MState :=
  { m with data := dictDel (dictDel m.data "ISSUE_DATE") "LABEL" }

theorem labelIssueFix_removeBoth (m : MState)
    (h : (dictContains m.data "ISSUE_DATE" != dictContains m.data "LABEL") = true) :
    labelIssueFix m = removeBothLI m := by
  unfold labelIssueFix removeBothLI
  rw [if_pos h]

theorem labelIssueFix_removeBoth_id (m : MState) :
    labelIssueFix (removeBothLI m) = removeBothLI m := by
  have e1 : dictContains (removeBothLI m).data "ISSUE_DATE" = false := by
    show dictContains (dictDel (dictDel m.data "ISSUE_DATE") "LABEL") "ISSUE_DATE" = false
    rw [dictContains_del_ne _ _ _ (by decide : ("ISSUE_DATE" : String) ≠ "LABEL"),
        dictContains_del_self]
  have e2 : dictContains (removeBothLI m).data "LABEL" = false := by
    show dictContains (dictDel (dictDel m.data "ISSUE_DATE") "LABEL") "LABEL" = false
    rw [dictContains_del_self]
  unfold labelIssueFix
  rw [if_neg]
  intro hcon
  rw [e1, e2] at hcon
  exact absurd hcon (by decide)

theorem validate_exactlyOne (m : MState)
    (h : (dictContains m.data "ISSUE_DATE" != dictContains m.data "LABEL") = true) :
    Validate m = Validate (removeBothLI m) := by
  unfold Validate
  rw [labelIssueFix_removeBoth m h, labelIssueFix_removeBoth_id m]

theorem validate_ok_contains_false {m m' : MState} (h : Validate m = Except.ok m')
    (k : String) (hk : k ≠ "ORIGINAL_MEDIUM")
    (h0 : dictContains (labelIssueFix m).data k = false) :
    dictContains m'.data k = false := by
  obtain ⟨m2, m3, m4, h2, h3, h4, h5⟩ := validate_parts h
  obtain ⟨he2, -⟩ := discNumberCheck_ok h2
  subst he2
  obtain ⟨he4, -, -, -, -⟩ := requiredCheck_ok h4
  rw [he4] at h5
  rw [stripAllTags_contains h5 k]
  rcases mediumCheck_ok h3 with he3 | he3 <;> subst he3
  · show dictContains (dictSet _ "ORIGINAL_MEDIUM" _) k = false
    rw [dictContains_set_ne _ _ _ _ hk]
    exact h0
  · exact h0

/-- C9: validation never fails on account of the LABEL/ISSUE_DATE pairing:
when exactly one of the two tags is present, `_Validate` behaves exactly as
on the state with both removed (so a failure can only have another cause),
both tags are absent from any successful validation result, and after every
successful construction LABEL is present iff ISSUE_DATE is present. -/
theorem C9_label_issue_date :
    (∀ m : MState,
        (dictContains m.data "ISSUE_DATE" != dictContains m.data "LABEL") = true →
        Validate m = Validate (removeBothLI m))
    ∧ (∀ (m m' : MState),
        (dictContains m.data "ISSUE_DATE" != dictContains m.data "LABEL") = true →
        Validate m = Except.ok m' →
        dictContains m'.data "LABEL" = false ∧ dictContains m'.data "ISSUE_DATE" = false)
    ∧ (∀ (sumparts : Bool) (args : Option Args) (m m' : MState),
        constructTail sumparts args m = Except.ok m' →
        dictContains m'.data "LABEL" = dictContains m'.data "ISSUE_DATE") := by
  refine ⟨fun m h => validate_exactlyOne m h, ?_, ?_⟩
  · intro m m' hone h
    constructor
    · apply validate_ok_contains_false h "LABEL" (by decide)
      rw [labelIssueFix_removeBoth m hone]
      show dictContains (dictDel (dictDel m.data "ISSUE_DATE") "LABEL") "LABEL" = false
      rw [dictContains_del_self]
    · apply validate_ok_contains_false h "ISSUE_DATE" (by decide)
      rw [labelIssueFix_removeBoth m hone]
      show dictContains (dictDel (dictDel m.data "ISSUE_DATE") "LABEL") "ISSUE_DATE" = false
      rw [dictContains_del_ne _ _ _ (by decide : ("ISSUE_DATE" : String) ≠ "LABEL"),
          dictContains_del_self]
  · intro sp args m m' h
    obtain ⟨mv, mr, h1, h2, h3⟩ := constructTail_parts h
    have heq := validate_ok_label_eq h2
    unfold dictContains at heq ⊢
    rw [finalize_ok_lookup_ne h3 "LABEL" (by decide) (by decide),
        finalize_ok_lookup_ne h3 "ISSUE_DATE" (by decide) (by decide)]
    exact heq

/-- A source state carrying a `LABEL` but no `ISSUE_DATE`. -/
def labelOnlyState : MState :=
  { data := [("TITLE", some "A"), ("ARTIST", some "B"), ("GENRE", some "C"),
             ("DATE_RECORDED", some "2001"), ("ORIGINAL_MEDIUM", some "CD"),
             ("LABEL", some "L")] }

/-- C9 witness: the theorem applied at a state holding only `LABEL`, whose
validation succeeds with both tags silently cleared, and at a concrete
successful construction. -/
theorem C9_label_issue_date_witness :
    Validate labelOnlyState = Validate (removeBothLI labelOnlyState)
      ∧ (dictContains cleanState.data "LABEL" = false
          ∧ dictContains cleanState.data "ISSUE_DATE" = false)
      ∧ dictContains cleanState.data "LABEL" = dictContains cleanState.data "ISSUE_DATE" :=
  ⟨C9_label_issue_date.1 labelOnlyState (by decide),
   C9_label_issue_date.2.1 labelOnlyState cleanState (by decide) rfl,
   C9_label_issue_date.2.2 false none cleanState cleanState rfl⟩

/-! ### C3: TOTAL_PARTS and the per-disc summary totals -/

theorem dgLookup_cons (k' : String) (ps : List (Nat × Nat))
    (t : List (String × List (Nat × Nat))) (k : String) :
    dgLookup ((k', ps) :: t) k = if k' == k then some ps else dgLookup t k := rfl

theorem dgLookup_dgAdd_eq (acc : List (String × List (Nat × Nat))) (k : String) (p : Nat × Nat) :
    dgLookup (dgAdd acc k p) k = some (((dgLookup acc k).getD []) ++ [p]) := by
  induction acc with
  | nil => simp [dgAdd, dgLookup]
  | cons q t ih =>
    obtain ⟨k', ps⟩ := q
    unfold dgAdd
    by_cases hk : (k' == k) = true
    · rw [if_pos hk, dgLookup_cons, if_pos hk, dgLookup_cons, if_pos hk]
      rfl
    · rw [if_neg hk, dgLookup_cons, if_neg hk, dgLookup_cons, if_neg hk]
      exact ih

theorem dgLookup_dgAdd_ne (acc : List (String × List (Nat × Nat))) (k : String) (p : Nat × Nat)
    (ds : String) (h : k ≠ ds) :
    dgLookup (dgAdd acc k p) ds = dgLookup acc ds := by
  induction acc with
  | nil =>
    show dgLookup [(k, [p])] ds = dgLookup [] ds
    rw [dgLookup_cons, if_neg (by simpa using h)]
  | cons q t ih =>
    obtain ⟨k', ps⟩ := q
    unfold dgAdd
    by_cases hk : (k' == k) = true
    · rw [if_pos hk]
      have hne : (k' == ds) = false := by
        have : k' = k := eq_of_beq hk
        subst this
        simpa using h
      rw [dgLookup_cons, dgLookup_cons, if_neg (by simp [hne]), if_neg (by simp [hne])]
    · rw [if_neg hk, dgLookup_cons, dgLookup_cons]
      by_cases h2 : (k' == ds) = true
      · rw [if_pos h2, if_pos h2]
      · rw [if_neg h2, if_neg h2]
        exact ih

theorem discinfoGo_lookup (ts : List Track) :
    ∀ (i : Nat) (acc info : List (String × List (Nat × Nat))),
    discinfoGo ts i acc = some info → ∀ ds : String,
    ((dgLookup info ds).getD []).map Prod.snd
      = ((dgLookup acc ds).getD []).map Prod.snd
        ++ (ts.filter (fun t => GetDisc t == some ds)).map Track.track := by
  induction ts with
  | nil =>
    intro i acc info h ds
    replace h : acc = info := by simpa [discinfoGo] using h
    subst h
    simp
  | cons t ts ih =>
    intro i acc info h ds
    unfold discinfoGo at h
    cases hg : GetDisc t with
    | none => rw [hg] at h; exact absurd h (by simp)
    | some dt =>
      rw [hg] at h
      have hrec := ih (i + 1) (dgAdd acc dt (i, t.track)) info h ds
      rw [hrec, List.filter_cons]
      by_cases hd : dt = ds
      · subst hd
        rw [dgLookup_dgAdd_eq, if_pos (by rw [hg]; simp)]
        show (((dgLookup acc dt).getD []) ++ [(i, t.track)]).map Prod.snd
            ++ (ts.filter (fun t => GetDisc t == some dt)).map Track.track = _
        simp [List.map_append]
      · rw [dgLookup_dgAdd_ne _ _ _ _ hd, if_neg (by rw [hg]; simp [hd])]

theorem discinfo_group_total (tracks : List Track)
    (info : List (String × List (Nat × Nat))) (h : discinfo tracks = some info)
    (ds : String) (grp : List (Nat × Nat)) (hlk : dgLookup info ds = some grp) :
    discTagTotalParts grp
      = ((tracks.filter (fun t => GetDisc t == some ds)).map Track.track).max? := by
  have hsp := discinfoGo_lookup tracks 0 [] info h ds
  rw [hlk] at hsp
  simp only [Option.getD_some] at hsp
  rw [show dgLookup [] ds = none from rfl] at hsp
  simp only [Option.getD_none, List.map_nil, List.nil_append] at hsp
  unfold discTagTotalParts
  rw [hsp]

/-- C3: for every successfully constructed Metadata with a non-empty track
list, `sumparts = true` yields a `TOTAL_PARTS` tag equal to the maximum of
the tracks' track numbers (not the entry count), `sumparts = false` leaves
`TOTAL_PARTS` absent; and each per-disc block of the multi-disc tag writer
reports as its total the maximum track number among that disc/side's
tracks. -/
theorem C3_total_parts :
    (∀ (args : Option Args) (m m' : MState), m.tracks ≠ [] →
        constructTail true args m = Except.ok m' →
        ∃ mx, (m.tracks.map Track.track).max? = some mx ∧
          dictContains m'.data "TOTAL_PARTS" = true ∧
          getVal m' "TOTAL_PARTS" = some (decRepr mx))
    ∧ (∀ (args : Option Args) (m m' : MState),
        constructTail false args m = Except.ok m' →
        dictContains m'.data "TOTAL_PARTS" = false)
    ∧ (∀ (tracks : List Track) (info : List (String × List (Nat × Nat))),
        discinfo tracks = some info →
        ∀ (ds : String) (grp : List (Nat × Nat)), dgLookup info ds = some grp →
          discTagTotalParts grp
            = ((tracks.filter (fun t => GetDisc t == some ds)).map Track.track).max?) := by
  refine ⟨?_, ?_, fun tracks info h ds grp hlk => discinfo_group_total tracks info h ds grp hlk⟩
  · intro args m m' _hne h
    obtain ⟨mv, mr, h1, h2, h3⟩ := constructTail_parts h
    obtain ⟨m1, hs1, hs2⟩ := finalize_parts h3
    obtain ⟨mx, hmx, he1⟩ := finalizeSumparts_true_ok hs1
    have htr : mr.tracks = m.tracks := by
      obtain ⟨m0, hv0, ht0, -, -, -⟩ := mergeWithArgs_ok_exists h1
      obtain ⟨ht1, -, -, -, -⟩ := validate_ok_fields hv0
      obtain ⟨ht2, -, -, -, -⟩ := validate_ok_fields h2
      rw [ht2, ht1, ht0]
    have hlk1 : dictLookup m1.data "TOTAL_PARTS" = some (some (decRepr mx)) := by
      subst he1
      exact dictLookup_set_self _ _ _
    have hlk : dictLookup m'.data "TOTAL_PARTS" = some (some (decRepr mx)) := by
      rcases finalizeYear_ok hs2 with he | ⟨y, he⟩ <;> subst he
      · exact hlk1
      · rw [show ({ m1 with data := dictSet m1.data "DATE_RECORDED" (some y) } : MState).data
              = dictSet m1.data "DATE_RECORDED" (some y) from rfl,
            dictLookup_set_ne _ _ _ _ (by decide : ("TOTAL_PARTS" : String) ≠ "DATE_RECORDED")]
        exact hlk1
    refine ⟨mx, by rw [← htr]; exact hmx, ?_, ?_⟩
    · unfold dictContains
      rw [hlk]
      rfl
    · unfold getVal
      rw [hlk]
  · intro args m m' h
    obtain ⟨mv, mr, h1, h2, h3⟩ := constructTail_parts h
    obtain ⟨m1, hs1, hs2⟩ := finalize_parts h3
    obtain ⟨hc1, -⟩ := finalizeSumparts_false_ok hs1
    rcases finalizeYear_ok hs2 with he | ⟨y, he⟩ <;> subst he
    · exact hc1
    · rw [show dictContains ({ m1 with data := dictSet m1.data "DATE_RECORDED" (some y) }
            : MState).data "TOTAL_PARTS"
          = dictContains (dictSet m1.data "DATE_RECORDED" (some y)) "TOTAL_PARTS" from rfl,
        dictContains_set_ne _ _ _ _ (by decide : ("TOTAL_PARTS" : String) ≠ "DATE_RECORDED")]
      exact hc1

/-- Tracks spanning two discs, with sub-track-style numbering on disc 1. -/
def tracksEx : List Track :=
  [{ title := "x", track := 3, disc := some "1" },
   { title := "y", track := 1, disc := some "1" },
   { title := "z", track := 5, disc := some "2" }]

/-- `cleanState` with two track records whose maximum track number is 3. -/
def trackState : MState :=
  { cleanState with tracks := [{ title := "x", track := 3 }, { title := "y", track := 1 }] }

/-- The result of finalizing `trackState` with `sumparts = true`. -/
def trackStateResult : MState :=
  { data := [("TITLE", some "A"), ("ARTIST", some "B"), ("GENRE", some "C"),
             ("DATE_RECORDED", some "2001"), ("ORIGINAL_MEDIUM", some "CD"),
             ("TOTAL_PARTS", some "3")],
    tracks := [{ title := "x", track := 3 }, { title := "y", track := 1 }] }

/-- C3 witness: the theorem applied at concrete constructions and at a
concrete two-disc track list. -/
theorem C3_total_parts_witness :
    (∃ mx, (trackState.tracks.map Track.track).max? = some mx ∧
        dictContains trackStateResult.data "TOTAL_PARTS" = true ∧
        getVal trackStateResult "TOTAL_PARTS" = some (decRepr mx))
    ∧ dictContains cleanState.data "TOTAL_PARTS" = false
    ∧ discTagTotalParts [(0, 3), (1, 1)]
        = ((tracksEx.filter (fun t => GetDisc t == some "1")).map Track.track).max? :=
  ⟨C3_total_parts.1 none trackState trackStateResult (by decide) rfl,
   C3_total_parts.2.1 none cleanState cleanState rfl,
   C3_total_parts.2.2 tracksEx [("1", [(0, 3), (1, 1)]), ("2", [(2, 5)])] rfl
     "1" [(0, 3), (1, 1)] rfl⟩

/-! ### C7 and C6: the sanitizer and the output filename -/

/-- C7: the filename sanitizer is idempotent, and character by character:
each of the five characters less-than, greater-than, colon, slash and
backslash becomes `-`, each of `|?*` is removed, a double quote becomes a
single quote, and every other character is kept unchanged. -/
theorem C7_sanitizer_idempotent :
    (∀ s : String, sanitizeFilename (sanitizeFilename s) = sanitizeFilename s)
    ∧ (∀ s : String, (sanitizeFilename s).data = s.data.filterMap sanitizeChar)
    ∧ (∀ c ∈ dashChars, sanitizeChar c = some '-')
    ∧ (∀ c ∈ dropChars, sanitizeChar c = none)
    ∧ sanitizeChar '"' = some '\''
    ∧ (∀ c : Char, c ∉ dashChars → c ∉ dropChars → c ≠ '"' → sanitizeChar c = some c) := by
  refine ⟨sanitizeFilename_idem, sanitizeFilename_data, ?_, ?_, by decide, ?_⟩
  · intro c hc
    unfold sanitizeChar
    rw [if_pos hc]
  · intro c hc
    fin_cases hc <;> decide
  · intro c h1 h2 h3
    unfold sanitizeChar
    rw [if_neg h1, if_neg h2, if_neg h3]

/-- C7 witness: the sanitizer evaluated on a string exercising every
character class. -/
theorem C7_sanitizer_witness :
    sanitizeFilename (sanitizeFilename "a<b|c\"d") = sanitizeFilename "a<b|c\"d"
      ∧ (sanitizeFilename "a<b|c\"d").data = "a<b|c\"d".data.filterMap sanitizeChar
      ∧ sanitizeChar '<' = some '-'
      ∧ sanitizeChar '|' = none
      ∧ sanitizeChar 'a' = some 'a' :=
  ⟨C7_sanitizer_idempotent.1 "a<b|c\"d", C7_sanitizer_idempotent.2.1 "a<b|c\"d",
   C7_sanitizer_idempotent.2.2.1 '<' (by decide),
   C7_sanitizer_idempotent.2.2.2.1 '|' (by decide),
   C7_sanitizer_idempotent.2.2.2.2.2 'a' (by decide) (by decide) (by decide)⟩

/-- The state of the spec's filename scenario: `ARTIST="A/B"`,
`DATE_RECORDED="2001"`, `TITLE='Live: "Show"'`, no version, no disc info,
no label, CD medium, stereo. -/
def scenarioState : MState :=
  { data := [("TITLE", some "Live: \"Show\""), ("ARTIST", some "A/B"),
             ("GENRE", some "Rock"), ("DATE_RECORDED", some "2001"),
             ("ORIGINAL_MEDIUM", some "CD")] }

/-- C6: the scenario filename comes out as `"A-B - 2001 - Live- 'Show'.wav"`;
the version, disc and label parenthesized segments are dropped entirely
when their interior is empty; a CD medium and 2.0 channels contribute
nothing to the label segment; and a forced filename is returned
unchanged. -/
theorem C6_output_filename :
    GetOutputFilename scenarioState = "A-B - 2001 - Live- 'Show'.wav"
    ∧ (∀ m : MState, m.forced_filename = true → GetOutputFilename m = pyStr m.filename)
    ∧ (∀ m : MState, m.forced_filename = false →
        pyTruthy (getVal m "VERSION") = false →
        GetOutputFilename m
          = sanitizeFilename (baseTag m ++ discTag m ++ labelTag m ++ extWAV))
    ∧ (∀ m : MState, m.forced_filename = false →
        pyTruthy (getVal m "PART_NUMBER") = false →
        pyStr (getVal m "DISC_NAME") = "" →
        GetOutputFilename m
          = sanitizeFilename (baseTag m ++ versionTag m ++ labelTag m ++ extWAV))
    ∧ (∀ m : MState, m.forced_filename = false →
        pyStrip (labelInterior m) = "" →
        GetOutputFilename m
          = sanitizeFilename (baseTag m ++ versionTag m ++ discTag m ++ extWAV))
    ∧ (∀ m : MState, m.forced_filename = false →
        getVal m "ORIGINAL_MEDIUM" = some "CD" → m.channels = "2.0" →
        GetOutputFilename m
          = sanitizeFilename (baseTag m ++ versionTag m ++ discTag m
              ++ labelWrap (pyStrip (pyStr (getVal m "LABEL") ++ " "
                  ++ pyStr (getVal m "ISSUE_DATE") ++ " ")) ++ extWAV)) := by
  refine ⟨rfl, ?_, ?_, ?_, ?_, ?_⟩
  · intro m hf
    unfold GetOutputFilename
    rw [if_pos hf]
  · intro m hf hv
    unfold GetOutputFilename
    rw [if_neg (by simp [hf])]
    rw [show versionTag m = "" from by unfold versionTag; rw [if_neg (by simp [hv])]]
    rw [String.append_empty]
  · intro m hf hpn hdn
    unfold GetOutputFilename
    rw [if_neg (by simp [hf])]
    have hdt : discTag m = "" := by
      unfold discTag
      rw [if_neg (by simp [hpn]), hdn, String.append_empty]
      rfl
    rw [hdt, String.append_empty]
  · intro m hf hli
    unfold GetOutputFilename
    rw [if_neg (by simp [hf])]
    have hlt : labelTag m = "" := by
      unfold labelTag
      rw [hli]
      rfl
    rw [hlt, String.append_empty]
  · intro m hf hm hch
    unfold GetOutputFilename
    rw [if_neg (by simp [hf])]
    have hlt : labelTag m = labelWrap (pyStrip (pyStr (getVal m "LABEL") ++ " "
        ++ pyStr (getVal m "ISSUE_DATE") ++ " ")) := by
      unfold labelTag labelInterior
      rw [if_pos (by rw [hm]; decide)]
      rw [show channelsPart m = "" from by unfold channelsPart; rw [hch]; decide]
      rw [String.append_empty]
    rw [hlt]

/-- A state carrying an externally forced output name. -/
def forcedState : MState :=
  { data := [], filename := some "given.mka", forced_filename := true }

/-- C6 witness: the omission rules applied to the scenario state and the
forced-filename rule applied to a forced state. -/
theorem C6_output_filename_witness :
    GetOutputFilename forcedState = pyStr forcedState.filename
      ∧ GetOutputFilename scenarioState
          = sanitizeFilename (baseTag scenarioState ++ discTag scenarioState
              ++ labelTag scenarioState ++ extWAV)
      ∧ GetOutputFilename scenarioState
          = sanitizeFilename (baseTag scenarioState ++ versionTag scenarioState
              ++ labelTag scenarioState ++ extWAV)
      ∧ GetOutputFilename scenarioState
          = sanitizeFilename (baseTag scenarioState ++ versionTag scenarioState
              ++ discTag scenarioState ++ extWAV)
      ∧ GetOutputFilename scenarioState
          = sanitizeFilename (baseTag scenarioState ++ versionTag scenarioState
              ++ discTag scenarioState
              ++ labelWrap (pyStrip (pyStr (getVal scenarioState "LABEL") ++ " "
                  ++ pyStr (getVal scenarioState "ISSUE_DATE") ++ " ")) ++ extWAV) :=
  ⟨C6_output_filename.2.1 forcedState rfl,
   C6_output_filename.2.2.1 scenarioState rfl rfl,
   C6_output_filename.2.2.2.1 scenarioState rfl rfl rfl,
   C6_output_filename.2.2.2.2.1 scenarioState rfl rfl,
   C6_output_filename.2.2.2.2.2 scenarioState rfl rfl rfl⟩

/-! ### C10: positional numbering of the emitted TRACK lines -/

theorem pyStartsWith_false_of_get (s p : String) (i : Nat) (hi : i < p.data.length)
    (h : s.data.get? i ≠ p.data.get? i) : pyStartsWith s p = false := by
  unfold pyStartsWith
  cases hb : (s.data.take p.data.length == p.data) with
  | false => rfl
  | true =>
    exfalso
    have heq : s.data.take p.data.length = p.data := eq_of_beq hb
    apply h
    rw [← heq, List.get?_take hi]

theorem getq_left2 {α : Type} (l1 l2 l3 : List α) (i : Nat) (hi : i < l1.length) :
    ((l1 ++ l2) ++ l3).get? i = l1.get? i := by
  rw [List.get?_append (show i < (l1 ++ l2).length from by
        rw [List.length_append]; omega),
      List.get?_append hi]

theorem not_track_of_head {s : String} {c : Char} (hc : s.data.get? 0 = some c)
    (hne : c ≠ ' ') : pyStartsWith s "  TRACK" = false := by
  apply pyStartsWith_false_of_get s _ 0 (by decide)
  rw [hc, show ("  TRACK" : String).data.get? 0 = some ' ' from rfl]
  simp [hne]

theorem not_track_of_third {s : String} {c : Char} (hc : s.data.get? 2 = some c)
    (hne : c ≠ 'T') : pyStartsWith s "  TRACK" = false := by
  apply pyStartsWith_false_of_get s _ 2 (by decide)
  rw [hc, show ("  TRACK" : String).data.get? 2 = some 'T' from rfl]
  simp [hne]

theorem not_track_line_head2 (p1 p2 p3 : String) (c : Char)
    (hp : p1.data.get? 0 = some c) (hcne : c ≠ ' ') (hlen : 0 < p1.data.length) :
    pyStartsWith ((p1 ++ p2) ++ p3) "  TRACK" = false := by
  apply not_track_of_head (c := c) _ hcne
  show ((p1.data ++ p2.data) ++ p3.data).get? 0 = some c
  rw [getq_left2 _ _ _ 0 hlen]
  exact hp

theorem not_track_line_head4 (p1 p2 p3 p4 p5 : String) (c : Char)
    (hp : p1.data.get? 0 = some c) (hcne : c ≠ ' ') (hlen : 0 < p1.data.length) :
    pyStartsWith ((((p1 ++ p2) ++ p3) ++ p4) ++ p5) "  TRACK" = false := by
  apply not_track_of_head (c := c) _ hcne
  show ((((p1.data ++ p2.data) ++ p3.data) ++ p4.data) ++ p5.data).get? 0 = some c
  rw [List.get?_append (by simp only [List.length_append]; omega),
      List.get?_append (by simp only [List.length_append]; omega),
      List.get?_append (by simp only [List.length_append]; omega),
      List.get?_append hlen]
  exact hp

theorem not_track_line_third2 (p1 p2 p3 : String)
    (hp : p1.data.get? 2 = some ' ') (hlen : 2 < p1.data.length) :
    pyStartsWith ((p1 ++ p2) ++ p3) "  TRACK" = false := by
  apply not_track_of_third (c := ' ') _ (by decide)
  show ((p1.data ++ p2.data) ++ p3.data).get? 2 = some ' '
  rw [getq_left2 _ _ _ 2 hlen]
  exact hp

theorem not_track_line_third1 (p1 p2 : String)
    (hp : p1.data.get? 2 = some ' ') (hlen : 2 < p1.data.length) :
    pyStartsWith (p1 ++ p2) "  TRACK" = false := by
  apply not_track_of_third (c := ' ') _ (by decide)
  show (p1.data ++ p2.data).get? 2 = some ' '
  rw [List.get?_append hlen]
  exact hp

theorem track_header_sw (z rest : String) :
    pyStartsWith (("  TRACK " ++ z) ++ rest) "  TRACK" = true := by
  unfold pyStartsWith
  rw [show ((("  TRACK " ++ z) ++ rest)).data = ("  TRACK ".data ++ z.data) ++ rest.data
        from rfl,
      show ("  TRACK" : String).data.length = 7 from rfl,
      List.take_append_of_le_length (show (7 : Nat) ≤ ("  TRACK ".data ++ z.data).length from by
        rw [List.length_append]
        have h8 : ("  TRACK " : String).data.length = 8 := rfl
        omega),
      List.take_append_of_le_length (show (7 : Nat) ≤ ("  TRACK " : String).data.length from by
        decide)]
  decide

theorem flatten_map_singleton {α β : Type} (l : List α) (g : α → β) :
    (l.map (fun x => [g x])).flatten = l.map g := by
  induction l with
  | nil => rfl
  | cons a t ih => simp [ih]

theorem cueTrackBlock_filter (conv : String → String) (artist : String) (i : Nat) (t : Track) :
    (cueTrackBlock conv artist i t).filter (fun l => pyStartsWith l "  TRACK")
      = ["  TRACK " ++ zfill 2 (decRepr (i + 1)) ++ " AUDIO"] := by
  unfold cueTrackBlock
  have htrue : pyStartsWith ("  TRACK " ++ zfill 2 (decRepr (i + 1)) ++ " AUDIO")
      "  TRACK" = true := track_header_sw _ _
  have hf1 := not_track_line_third2 "    TITLE \"" (match t.subtitle with
      | some st => t.title ++ ": " ++ st
      | none => t.title) "\"" rfl (by decide)
  have hf2 := not_track_line_third2 "    PERFORMER \"" artist "\"" rfl (by decide)
  have hf3 := not_track_line_third1 "    INDEX 01 " (conv t.start_time) rfl (by decide)
  simp [List.filter_cons, htrue, hf1, hf2, hf3]

/-- C10: the CUE sheet builder numbers its `TRACK NN AUDIO` lines purely
positionally — the `i`-th track record (0-based) yields track number
`i + 1`, zero-padded to two digits, independent of the record's own
`track` field. -/
theorem C10_cue_positional_numbering (conv : String → String) (m : MState) :
    (CreateCUE conv m).filter (fun l => pyStartsWith l "  TRACK")
      = (List.range m.tracks.length).map
          (fun i => "  TRACK " ++ zfill 2 (decRepr (i + 1)) ++ " AUDIO") := by
  unfold CreateCUE
  rw [List.filter_append, List.filter_append, List.filter_append]
  have h1 := not_track_line_head2 "PERFORMER \"" (pyStr (getVal m "ARTIST")) "\"" 'P'
    rfl (by decide) (by decide)
  have h2 := not_track_line_head2 "TITLE \"" (pyStr (getVal m "TITLE")) "\"" 'T'
    rfl (by decide) (by decide)
  have h3 := not_track_line_head2 "REM DATE \"" (pyStr (getVal m "DATE_RECORDED")) "\"" 'R'
    rfl (by decide) (by decide)
  have hFILE := not_track_line_head2 "FILE \"" (GetOutputFilename m) "\" WAVE" 'F'
    rfl (by decide) (by decide)
  have hB : (valid_tags.filterMap (fun tag =>
      match dictLookup m.data tag with
      | some v => some ("REM " ++ tag ++ " \"" ++ pyStr v ++ "\"")
      | none => none)).filter (fun l => pyStartsWith l "  TRACK") = [] := by
    apply List.filter_eq_nil_iff.mpr
    intro line hline
    obtain ⟨tag, htag, hf⟩ := List.mem_filterMap.1 hline
    cases hl : dictLookup m.data tag with
    | none => rw [hl] at hf; exact absurd hf (by simp)
    | some v =>
      rw [hl] at hf
      replace hf : ("REM " ++ tag ++ " \"" ++ pyStr v ++ "\"") = line := by simpa using hf
      rw [← hf]
      simp [not_track_line_head4 "REM " tag " \"" (pyStr v) "\"" 'R' rfl (by decide) (by decide)]
  rw [show ([("PERFORMER \"" ++ pyStr (getVal m "ARTIST") ++ "\""),
        ("TITLE \"" ++ pyStr (getVal m "TITLE") ++ "\""),
        ("REM DATE \"" ++ pyStr (getVal m "DATE_RECORDED") ++ "\"")].filter
          (fun l => pyStartsWith l "  TRACK")) = [] from by simp [List.filter_cons, h1, h2, h3],
      hB,
      show ([("FILE \"" ++ GetOutputFilename m ++ "\" WAVE")].filter
          (fun l => pyStartsWith l "  TRACK")) = [] from by simp [List.filter_cons, hFILE],
      List.filter_flatten, List.map_map]
  have hblocks : (m.tracks.enum.map ((List.filter (fun l => pyStartsWith l "  TRACK")) ∘
      (fun p => cueTrackBlock conv (pyStr (getVal m "ARTIST")) p.1 p.2)))
      = m.tracks.enum.map (fun p => ["  TRACK " ++ zfill 2 (decRepr (p.1 + 1)) ++ " AUDIO"]) := by
    apply List.map_eq_map_iff.mpr
    intro p _
    exact cueTrackBlock_filter conv (pyStr (getVal m "ARTIST")) p.1 p.2
  rw [hblocks, flatten_map_singleton]
  rw [show (m.tracks.enum.map (fun p => "  TRACK " ++ zfill 2 (decRepr (p.1 + 1)) ++ " AUDIO"))
      = (m.tracks.enum.map Prod.fst).map
          (fun i => "  TRACK " ++ zfill 2 (decRepr (i + 1)) ++ " AUDIO") from by
        rw [List.map_map]; rfl,
      List.enum_map_fst]
  simp

/-! ### C8: INDEX selection in CUE track blocks -/

theorem sdictLookup_set_cases (d : StrDict) (k0 w k : String) (v : String)
    (h : sdictLookup (sdictSet d k0 w) k = some v) : v = w ∨ sdictLookup d k = some v := by
  induction d with
  | nil =>
    simp only [sdictSet, sdictLookup] at h
    split at h
    · exact Or.inl (by simpa using h.symm)
    · exact absurd h (by simp)
  | cons q t ih =>
    obtain ⟨k', v'⟩ := q
    unfold sdictSet at h
    by_cases hk : (k' == k0) = true
    · rw [if_pos hk] at h
      show _ ∨ sdictLookup ((k', v') :: t) k = some v
      unfold sdictLookup at h ⊢
      by_cases h2 : (k' == k) = true
      · rw [if_pos h2] at h
        exact Or.inl (by simpa using h.symm)
      · rw [if_neg h2] at h
        rw [if_neg h2]
        exact Or.inr h
    · rw [if_neg hk] at h
      show _ ∨ sdictLookup ((k', v') :: t) k = some v
      unfold sdictLookup at h ⊢
      by_cases h2 : (k' == k) = true
      · rw [if_pos h2] at h
        rw [if_pos h2]
        exact Or.inr h
      · rw [if_neg h2] at h
        rw [if_neg h2]
        exact ih h

theorem blockStep_times_conv (conv : String → String) (st : BlockState) (l : String)
    (h : ∀ k v, sdictLookup st.times k = some v → ∃ raw, v = conv raw) :
    ∀ k v, sdictLookup (blockStep conv st l).times k = some v → ∃ raw, v = conv raw := by
  intro k v hv
  unfold blockStep blockStepTagged at hv
  split at hv
  · exact h k v hv
  · split at hv
    · exact h k v hv
    · split at hv
      · rcases sdictLookup_set_cases _ _ _ _ _ hv with he | he
        · exact ⟨_, he⟩
        · exact h k v he
      · exact h k v hv

theorem foldl_times_conv (conv : String → String) (lines : List String) :
    ∀ st : BlockState,
    (∀ k v, sdictLookup st.times k = some v → ∃ raw, v = conv raw) →
    ∀ k v, sdictLookup (lines.foldl (blockStep conv) st).times k = some v →
      ∃ raw, v = conv raw := by
  induction lines with
  | nil => intro st h k v hv; exact h k v hv
  | cons l ls ih =>
    intro st h k v hv
    exact ih (blockStep conv st l) (blockStep_times_conv conv st l h) k v hv

theorem extractTrack_cons (conv : String → String) (l0 : String) (rest : List String) :
    ExtractTrackInformation conv (l0 :: rest)
      = (match chooseTime (parseBlock conv l0 rest).times with
        | some t =>
            Except.ok ({ data := (parseBlock conv l0 rest).data, start_time := t } : CueTrack)
        | none => Except.error (MetaErr.cueFormat
            ("No valid time codes found for track " ++ trackNoOf l0))) := rfl

/-- C8: within a CUE `TRACK` block, the resulting `start_time` is the
`conv`-image (in the source: `time.CueTimeToMKATime`) of the block's
`INDEX 01` payload when that key was collected, otherwise of its `INDEX 00`
payload; the selection consults no other key of the collected times, and a
block with neither yields `CueFormatError`.  Every collected time value is
the `conv`-image of some raw payload. -/
theorem C8_cue_index_selection (conv : String → String) (l0 : String) (rest : List String) :
    (∀ v, sdictLookup (parseBlock conv l0 rest).times "index01" = some v →
        ExtractTrackInformation conv (l0 :: rest)
          = Except.ok { data := (parseBlock conv l0 rest).data, start_time := v })
    ∧ (sdictLookup (parseBlock conv l0 rest).times "index01" = none →
        ∀ v, sdictLookup (parseBlock conv l0 rest).times "index00" = some v →
        ExtractTrackInformation conv (l0 :: rest)
          = Except.ok { data := (parseBlock conv l0 rest).data, start_time := v })
    ∧ (sdictLookup (parseBlock conv l0 rest).times "index01" = none →
        sdictLookup (parseBlock conv l0 rest).times "index00" = none →
        ExtractTrackInformation conv (l0 :: rest)
          = Except.error (MetaErr.cueFormat
              ("No valid time codes found for track " ++ trackNoOf l0)))
    ∧ (∀ times' : StrDict,
        sdictLookup times' "index01" = sdictLookup (parseBlock conv l0 rest).times "index01" →
        sdictLookup times' "index00" = sdictLookup (parseBlock conv l0 rest).times "index00" →
        chooseTime times' = chooseTime (parseBlock conv l0 rest).times)
    ∧ (∀ k v, sdictLookup (parseBlock conv l0 rest).times k = some v →
        ∃ raw, v = conv raw) := by
  refine ⟨?_, ?_, ?_, ?_, ?_⟩
  · intro v hv
    have hc : chooseTime (parseBlock conv l0 rest).times = some v := by
      unfold chooseTime
      rw [hv]
    rw [extractTrack_cons conv l0 rest, hc]
  · intro h01 v hv
    have hc : chooseTime (parseBlock conv l0 rest).times = some v := by
      unfold chooseTime
      rw [h01, hv]
    rw [extractTrack_cons conv l0 rest, hc]
  · intro h01 h00
    have hc : chooseTime (parseBlock conv l0 rest).times = none := by
      unfold chooseTime
      rw [h01, h00]
    rw [extractTrack_cons conv l0 rest, hc]
  · intro times' h1 h0
    unfold chooseTime
    rw [h1, h0]
  · intro k v hv
    exact foldl_times_conv conv _ _ (by intro k2 v2 h2; exact absurd h2 (by simp [sdictLookup]))
      k v hv

/-- C8 witness: a block carrying both `INDEX 00` and `INDEX 01` selects the
`INDEX 01` time, and a block with no index line at all is a
`CueFormatError`. -/
theorem C8_cue_index_selection_witness :
    ExtractTrackInformation (fun s => s)
        ["  TRACK 01 AUDIO", "    INDEX 00 00:00:00", "    INDEX 01 00:00:32"]
      = Except.ok { data := [("track", "1")], start_time := "00:00:32" }
    ∧ ExtractTrackInformation (fun s => s) ["  TRACK 02 AUDIO", "    TITLE \"Foo\""]
      = Except.error (MetaErr.cueFormat "No valid time codes found for track 2") := by
  constructor
  · exact (C8_cue_index_selection (fun s => s) "  TRACK 01 AUDIO"
      ["    INDEX 00 00:00:00", "    INDEX 01 00:00:32"]).1 "00:00:32" rfl
  · exact (C8_cue_index_selection (fun s => s) "  TRACK 02 AUDIO"
      ["    TITLE \"Foo\""]).2.2.1 rfl rfl

/-! ### C5: the chapter-ID pool -/

theorem getq_isSome {α : Type} (l : List α) (i : Nat) (h : i < l.length) :
    (l.get? i).isSome = true := by
  rw [List.get?_eq_get h]
  rfl

theorem newIDs_mem (gen : Nat → Nat) (old : List Nat) (target : Nat) :
    ∀ (fuel k : Nat) (acc : List Nat),
    (∀ a ∈ acc, ∃ j, j < k ∧ gen j = a) →
    ∀ a ∈ newIDs gen old target fuel k acc, ∃ j, j < k + fuel ∧ gen j = a := by
  intro fuel
  induction fuel with
  | zero =>
    intro k acc hacc a ha
    obtain ⟨j, hj, he⟩ := hacc a (by simpa [newIDs] using ha)
    exact ⟨j, by omega, he⟩
  | succ fuel ih =>
    intro k acc hacc a ha
    unfold newIDs at ha
    split at ha
    · obtain ⟨j, hj, he⟩ := hacc a ha
      exact ⟨j, by omega, he⟩
    · split at ha
      · obtain ⟨j, hj, he⟩ := ih (k + 1) acc
          (fun b hb => (hacc b hb).imp (fun j hj => ⟨by omega, hj.2⟩)) a ha
        exact ⟨j, by omega, he⟩
      · have hacc' : ∀ b ∈ acc ++ [gen k], ∃ j, j < k + 1 ∧ gen j = b := by
          intro b hb
          rcases List.mem_append.1 hb with h | h
          · obtain ⟨j, hj, he⟩ := hacc b h
            exact ⟨j, by omega, he⟩
          · simp only [List.mem_singleton] at h
            exact ⟨k, by omega, h.symm⟩
        obtain ⟨j, hj, he⟩ := ih (k + 1) (acc ++ [gen k]) hacc' a ha
        exact ⟨j, by omega, he⟩

theorem newIDs_spec (gen : Nat → Nat) (old : List Nat) (target : Nat) :
    ∀ (fuel k : Nat) (acc : List Nat),
    (∀ a ∈ acc, ∃ j, j < k ∧ gen j = a) →
    acc.Nodup →
    (∀ a ∈ acc, a ∉ old) →
    (∀ i j, i < k + fuel → j < k + fuel → gen i = gen j → i = j) →
    (∀ i, i < k + fuel → gen i ∉ old) →
    (newIDs gen old target fuel k acc).Nodup
      ∧ (∀ a ∈ newIDs gen old target fuel k acc, a ∉ old)
      ∧ (target ≤ old.length + acc.length + fuel →
          target ≤ old.length + (newIDs gen old target fuel k acc).length) := by
  intro fuel
  induction fuel with
  | zero =>
    intro k acc hacc hnd hdisj hinj hfresh
    refine ⟨by simpa [newIDs] using hnd, ?_, ?_⟩
    · intro a ha
      exact hdisj a (by simpa [newIDs] using ha)
    · intro hle
      have : (newIDs gen old target 0 k acc) = acc := rfl
      rw [this]
      omega
  | succ fuel ih =>
    intro k acc hacc hnd hdisj hinj hfresh
    unfold newIDs
    by_cases hstop : target ≤ old.length + acc.length
    · rw [if_pos hstop]
      exact ⟨hnd, hdisj, fun _ => by omega⟩
    · rw [if_neg hstop]
      by_cases hmem : gen k ∈ old ∨ gen k ∈ acc
      · exfalso
        rcases hmem with hm | hm
        · exact hfresh k (by omega) hm
        · obtain ⟨j, hj, he⟩ := hacc _ hm
          have : j = k := hinj j k (by omega) (by omega) he
          omega
      · rw [if_neg hmem]
        push_neg at hmem
        obtain ⟨hm1, hm2⟩ := hmem
        have hacc' : ∀ a ∈ acc ++ [gen k], ∃ j, j < k + 1 ∧ gen j = a := by
          intro a ha
          rcases List.mem_append.1 ha with h | h
          · obtain ⟨j, hj, he⟩ := hacc a h
            exact ⟨j, by omega, he⟩
          · simp only [List.mem_singleton] at h
            exact ⟨k, by omega, h.symm⟩
        have hnd' : (acc ++ [gen k]).Nodup := by
          refine List.Nodup.append hnd (List.nodup_singleton _) ?_
          intro a ha hb
          simp only [List.mem_singleton] at hb
          subst hb
          exact hm2 ha
        have hdisj' : ∀ a ∈ acc ++ [gen k], a ∉ old := by
          intro a ha
          rcases List.mem_append.1 ha with h | h
          · exact hdisj a h
          · simp only [List.mem_singleton] at h
            subst h
            exact hm1
        have hinj' : ∀ i j, i < (k + 1) + fuel → j < (k + 1) + fuel → gen i = gen j → i = j :=
          fun i j hi hj he => hinj i j (by omega) (by omega) he
        have hfresh' : ∀ i, i < (k + 1) + fuel → gen i ∉ old :=
          fun i hi => hfresh i (by omega)
        obtain ⟨c2, c3, c4⟩ := ih (k + 1) (acc ++ [gen k]) hacc' hnd' hdisj' hinj' hfresh'
        refine ⟨c2, c3, ?_⟩
        intro hle
        apply c4
        rw [List.length_append, List.length_singleton]
        omega

theorem requestIDs_take (gen : Nat → Nat) (fuel : Nat) (pool : List Nat) (n : Nat) :
    (requestIDs gen fuel pool n).take pool.length = pool := by
  unfold requestIDs
  split
  · exact List.take_length pool
  · rw [List.take_append_of_le_length (Nat.le_refl _), List.take_length]

theorem requestIDs_length (gen : Nat → Nat) (fuel : Nat) (pool : List Nat) (n : Nat)
    (hfuel : n + 1 ≤ fuel)
    (hinj : ∀ i j, i < fuel → j < fuel → gen i = gen j → i = j)
    (hfresh : ∀ i, i < fuel → gen i ∉ pool) :
    n + 1 ≤ (requestIDs gen fuel pool n).length := by
  unfold requestIDs
  split
  · next h => omega
  · next h =>
    obtain ⟨-, -, c4⟩ := newIDs_spec gen pool.dedup (n + 1) fuel 0 []
      (by simp) List.nodup_nil (by simp)
      (fun i j hi hj => hinj i j (by omega) (by omega))
      (fun i hi hmem => hfresh i (by omega) (List.mem_dedup.1 hmem))
    have hd : pool.dedup.length ≤ pool.length := (List.dedup_sublist pool).length_le
    have hlen := c4 (by simpa using (by omega : n + 1 ≤ pool.dedup.length + fuel))
    rw [List.length_append]
    omega

theorem requestIDs_nodup (gen : Nat → Nat) (fuel : Nat) (pool : List Nat) (n : Nat)
    (hinj : ∀ i j, i < fuel → j < fuel → gen i = gen j → i = j)
    (hfresh : ∀ i, i < fuel → gen i ∉ pool)
    (hnd : pool.Nodup) : (requestIDs gen fuel pool n).Nodup := by
  unfold requestIDs
  split
  · exact hnd
  · obtain ⟨c2, c3, -⟩ := newIDs_spec gen pool.dedup (n + 1) fuel 0 []
      (by simp) List.nodup_nil (by simp)
      (fun i j hi hj => hinj i j (by omega) (by omega))
      (fun i hi hmem => hfresh i (by omega) (List.mem_dedup.1 hmem))
    refine List.Nodup.append hnd c2 ?_
    intro a ha hb
    exact c3 a hb (List.mem_dedup.2 ha)

/-- C5: the chapter-ID pool is append-only and stable at existing indices:
a request of size `n` leaves at least `n + 1` entries, keeps the old pool
as the unchanged initial segment, a smaller earlier request observes
exactly the initial segment of any later larger request, indexing with
`k ∈ [-1, n-1]` returns entry `k` of the first `n + 1` entries (`-1` the
last of those), every new entry is a 16-digit value of the random source,
and uniqueness is preserved.  The random source `gen` is assumed injective
and fresh on the indices the draw loop can consume. -/
theorem C5_chapter_id_pool (gen gen2 : Nat → Nat) (pool : List Nat) (n m fuel fuel2 : Nat)
    (hfuel : n + 1 ≤ fuel)
    (hinj : ∀ i j, i < fuel → j < fuel → gen i = gen j → i = j)
    (hfresh : ∀ i, i < fuel → gen i ∉ pool) :
    (requestIDs gen fuel pool n).take pool.length = pool
    ∧ n + 1 ≤ (requestIDs gen fuel pool n).length
    ∧ (m < n →
        (requestIDs gen fuel pool m).take (m + 1)
          = (requestIDs gen2 fuel2 (requestIDs gen fuel pool m) n).take (m + 1))
    ∧ (∀ k : Int, 0 ≤ k → k ≤ (n : Int) - 1 →
        GetID (requestIDs gen fuel pool n) (n + 1) k
            = (requestIDs gen fuel pool n).get? k.toNat
          ∧ ((requestIDs gen fuel pool n).get? k.toNat).isSome = true)
    ∧ (GetID (requestIDs gen fuel pool n) (n + 1) (-1)
            = (requestIDs gen fuel pool n).get? n
          ∧ ((requestIDs gen fuel pool n).get? n).isSome = true)
    ∧ ((∀ i, i < fuel → 10 ^ 15 ≤ gen i ∧ gen i ≤ 10 ^ 16 - 1) →
        ∀ x ∈ requestIDs gen fuel pool n, x ∈ pool ∨ (10 ^ 15 ≤ x ∧ x ≤ 10 ^ 16 - 1))
    ∧ (pool.Nodup → (requestIDs gen fuel pool n).Nodup) := by
  have hlen : n + 1 ≤ (requestIDs gen fuel pool n).length :=
    requestIDs_length gen fuel pool n hfuel hinj hfresh
  refine ⟨requestIDs_take gen fuel pool n, hlen, ?_, ?_, ?_, ?_,
    requestIDs_nodup gen fuel pool n hinj hfresh⟩
  · intro hmn
    have hlen1 : m + 1 ≤ (requestIDs gen fuel pool m).length :=
      requestIDs_length gen fuel pool m (by omega) hinj hfresh
    have htake := requestIDs_take gen2 fuel2 (requestIDs gen fuel pool m) n
    calc (requestIDs gen fuel pool m).take (m + 1)
        = ((requestIDs gen2 fuel2 (requestIDs gen fuel pool m) n).take
            (requestIDs gen fuel pool m).length).take (m + 1) := by rw [htake]
      _ = (requestIDs gen2 fuel2 (requestIDs gen fuel pool m) n).take
            (min (m + 1) (requestIDs gen fuel pool m).length) := by rw [List.take_take]
      _ = (requestIDs gen2 fuel2 (requestIDs gen fuel pool m) n).take (m + 1) := by
            rw [min_eq_left hlen1]
  · intro k hk0 hk1
    have hklt : k.toNat < n + 1 := by omega
    have hk2 : k.toNat < (requestIDs gen fuel pool n).length := by omega
    constructor
    · unfold GetID pyListIndex
      rw [if_neg (by omega)]
      exact List.get?_take hklt
    · exact getq_isSome _ _ hk2
  · have hn2 : n < (requestIDs gen fuel pool n).length := by omega
    constructor
    · unfold GetID pyListIndex
      rw [if_pos (by decide)]
      have hl : ((requestIDs gen fuel pool n).take (n + 1)).length = n + 1 := by
        rw [List.length_take, min_eq_left hlen]
      rw [if_pos (by rw [hl]; omega)]
      rw [hl, show n + 1 - (-(-1 : Int)).toNat = n from by omega]
      exact List.get?_take (by omega)
    · exact getq_isSome _ _ hn2
  · intro hrange x hx
    unfold requestIDs at hx
    split at hx
    · exact Or.inl hx
    · rcases List.mem_append.1 hx with h | h
      · exact Or.inl h
      · obtain ⟨j, hj, he⟩ := newIDs_mem gen pool.dedup (n + 1) fuel 0 [] (by simp) x h
        subst he
        exact Or.inr (hrange j (by omega))

/-- C5 witness: the pool theorem applied to the empty pool with the fresh
injective source `i ↦ 10^15 + i`, at sizes `m = 1 < n = 2`. -/
theorem C5_chapter_id_pool_witness :
    3 ≤ (requestIDs (fun i => 10 ^ 15 + i) 3 [] 2).length
    ∧ (requestIDs (fun i => 10 ^ 15 + i) 3 [] 1).take 2
        = (requestIDs (fun i => 10 ^ 15 + i) 3
            (requestIDs (fun i => 10 ^ 15 + i) 3 [] 1) 2).take 2
    ∧ GetID (requestIDs (fun i => 10 ^ 15 + i) 3 [] 2) 3 (-1)
        = (requestIDs (fun i => 10 ^ 15 + i) 3 [] 2).get? 2
    ∧ (requestIDs (fun i => 10 ^ 15 + i) 3 [] 2).Nodup := by
  have H := C5_chapter_id_pool (fun i => 10 ^ 15 + i) (fun i => 10 ^ 15 + i) [] 2 1 3 3
    (by omega) (by intro i j _ _ h; simpa using h)
    (by intro i _ h; exact absurd h (List.not_mem_nil _))
  exact ⟨H.2.1, H.2.2.1 (by omega), (H.2.2.2.2.1).1, H.2.2.2.2.2.2 List.nodup_nil⟩
